import Mathlib

/-!
Shallow embedding of the picoDSP-Edit preset protocol (src/protocol.rs),
the live-parameter structural-change detector and portamento controller
(src/audio.rs), and the fast LFO (src/fast_lfo.rs).

Conventions of the embedding:
* `u8` bytes and `u32`/`u64` words are `Nat` with explicit `% 2^w` where the
  Rust code can wrap.
* `f32` fields of a `Preset` are represented by their 32-bit IEEE-754 bit
  patterns (a `Nat < 2^32`): the codec only moves these bits through
  `to_le_bytes`/`from_le_bytes`, so the byte-level behaviour is exact.
* Rust code that can panic (out-of-bounds slice indexing) is modelled with
  `Option` (`none` = panic); `Storage.from_sysex` distinguishes a clean
  `return None` (`DecodeResult.reject`) from a panic (`DecodeResult.panic`).
* The numeric behaviour of the portamento controller and the LFO
  (src/audio.rs, src/fast_lfo.rs) is modelled over exact rationals `ℚ`,
  the idealized real-number semantics of the `f32` expressions.
-/

set_option maxRecDepth 20000

namespace PicoDSP

/-! ## Constants (src/protocol.rs lines 1-15) -/

def SYSEX_START : Nat := 0xF0
def SYSEX_END : Nat := 0xF7
def MANUFACTURER_ID : Nat := 0x7D
def MODEL_ID : Nat := 0x01
def CMD_WRITE_REQ : Nat := 0x02
def MAGIC : Nat := 0x50445350
def VERSION : Nat := 7
def STORAGE_SIZE : Nat := 4096
def PRESET_SIZE : Nat := 200

/-! ## Enums (src/protocol.rs lines 17-58) -/

/-- Oscillator waveform enum, discriminants 0..4 (protocol.rs lines 17-24). -/
inductive Waveform where
  | Sine | Triangle | Saw | Square | Noise
  deriving DecidableEq, Repr

/-- Discriminant of `Waveform` (the Rust `as u32` cast). -/
def Waveform.toU32 : Waveform → Nat
  | .Sine => 0
  | .Triangle => 1
  | .Saw => 2
  | .Square => 3
  | .Noise => 4

/-- Decoding of a `u32` into a `Waveform`: `impl From<u32> for Waveform`
(protocol.rs lines 26-36); any value other than 0..3 becomes `Noise`. -/
def Waveform.ofU32 (val : Nat) : Waveform :=
  match val with
  | 0 => .Sine
  | 1 => .Triangle
  | 2 => .Saw
  | 3 => .Square
  | _ => .Noise

/-- LFO waveform enum, discriminants 0..3 (protocol.rs lines 38-46). -/
inductive LfoWaveform where
  | Sine | Triangle | Saw | Square
  deriving DecidableEq, Repr

def LfoWaveform.toU32 : LfoWaveform → Nat
  | .Sine => 0
  | .Triangle => 1
  | .Saw => 2
  | .Square => 3

/-- Decoding of a `u32` into an `LfoWaveform`: `impl From<u32> for LfoWaveform`
(protocol.rs lines 49-58); any value other than 0..2 becomes `Square`. -/
def LfoWaveform.ofU32 (val : Nat) : LfoWaveform :=
  match val with
  | 0 => .Sine
  | 1 => .Triangle
  | 2 => .Saw
  | _ => .Square

/-! ## Settings records (src/protocol.rs lines 60-174)

Scalar `f32` fields are carried as their 32-bit IEEE-754 bit patterns. -/

structure OscSettings where
  waveform : Waveform
  level : Nat
  octave : Nat
  detune : Nat
  vibrato : Bool
  deriving DecidableEq, Repr

structure FilterSettings where
  cutoff : Nat
  resonance : Nat
  env_amt : Nat
  attack : Nat
  decay : Nat
  sustain : Nat
  release : Nat
  deriving DecidableEq, Repr

structure EnvSettings where
  attack : Nat
  decay : Nat
  sustain : Nat
  release : Nat
  deriving DecidableEq, Repr

structure LfoSettings where
  freq : Nat
  waveform : LfoWaveform
  vib_amt : Nat
  filt_amt : Nat
  deriving DecidableEq, Repr

structure DelaySettings where
  time : Nat
  feedback : Nat
  mix : Nat
  enabled : Bool
  deriving DecidableEq, Repr

structure ReverbSettings where
  size : Nat
  damping : Nat
  mix : Nat
  enabled : Bool
  deriving DecidableEq, Repr

/-- The preset record (protocol.rs lines 160-174); `name` is the UTF-8 byte
sequence of the Rust `String` (each entry an octet `< 256`). -/
structure Preset where
  name : List Nat
  osc1 : OscSettings
  osc2 : OscSettings
  osc3 : OscSettings
  noise : Nat
  portamento : Nat
  filter : FilterSettings
  amp : EnvSettings
  lfo_enabled : Bool
  lfo : LfoSettings
  delay : DelaySettings
  reverb : ReverbSettings
  deriving DecidableEq, Repr

/-! ### IEEE-754 single-precision bit patterns of the Rust float literals
used by the `Default` impls (protocol.rs lines 69-158):
`0.0 = 0x00000000`, `1.0 = 0x3F800000`, `0.5 = 0x3F000000`,
`20000.0 = 0x469C4000`, `0.01 = 0x3C23D70A`, `0.1 = 0x3DCCCCCD`. -/

def bits_0_0 : Nat := 0x00000000
def bits_1_0 : Nat := 0x3F800000
def bits_20000_0 : Nat := 0x469C4000
def bits_0_01 : Nat := 0x3C23D70A
def bits_0_1 : Nat := 0x3DCCCCCD

/-- Default oscillator settings (protocol.rs lines 69-79). -/
def OscSettings.default : OscSettings :=
  { waveform := .Saw, level := bits_1_0, octave := bits_0_0,
    detune := bits_0_0, vibrato := false }

/-- Default filter settings (protocol.rs lines 92-104). -/
def FilterSettings.default : FilterSettings :=
  { cutoff := bits_20000_0, resonance := bits_0_0, env_amt := bits_0_0,
    attack := bits_0_0, decay := bits_0_0, sustain := bits_1_0,
    release := bits_0_0 }

/-- Default amp envelope settings (protocol.rs lines 114-123). -/
def EnvSettings.default : EnvSettings :=
  { attack := bits_0_01, decay := bits_0_1, sustain := bits_1_0,
    release := bits_0_1 }

/-- Default LFO settings (protocol.rs lines 133-142). -/
def LfoSettings.default : LfoSettings :=
  { freq := bits_1_0, waveform := .Sine, vib_amt := bits_0_0,
    filt_amt := bits_0_0 }

/-- Derived `Default` for `DelaySettings` (protocol.rs line 144): all zeros. -/
def DelaySettings.default : DelaySettings :=
  { time := bits_0_0, feedback := bits_0_0, mix := bits_0_0, enabled := false }

/-- Derived `Default` for `ReverbSettings` (protocol.rs line 152): all zeros. -/
def ReverbSettings.default : ReverbSettings :=
  { size := bits_0_0, damping := bits_0_0, mix := bits_0_0, enabled := false }

/-- Default preset "Init Patch" (protocol.rs lines 176-199); the name bytes
are the ASCII codes of `"Init Patch"`. -/
def Preset.default : Preset :=
  { name := [73, 110, 105, 116, 32, 80, 97, 116, 99, 104]
    osc1 := OscSettings.default
    osc2 := { OscSettings.default with level := bits_0_0 }
    osc3 := { OscSettings.default with level := bits_0_0 }
    noise := bits_0_0
    portamento := bits_0_0
    filter := FilterSettings.default
    amp := EnvSettings.default
    lfo_enabled := false
    lfo := LfoSettings.default
    delay := DelaySettings.default
    reverb := ReverbSettings.default }

/-! ## Little-endian serialization helpers (protocol.rs lines 201-219) -/

/-- Little-endian 4-byte encoding of a 32-bit word (`u32::to_le_bytes`,
also `f32::to_le_bytes` on the float's bit pattern). -/
def u32ToLe (n : Nat) : List Nat :=
  [n % 256, n / 256 % 256, n / 65536 % 256, n / 16777216 % 256]

/-- Little-endian reconstruction of a 32-bit word from 4 bytes
(`u32::from_le_bytes` / `f32::from_le_bytes`). -/
def leToU32 : List Nat → Nat
  | [a, b, c, d] => a + 256 * b + 65536 * c + 16777216 * d
  | _ => 0

/-- The Rust `write_u32` (protocol.rs lines 211-213) appends the little-endian
bytes of `val`; we model buffer building by list concatenation, so this is
just `u32ToLe`. -/
def write_u32 (val : Nat) : List Nat := u32ToLe val

/-- The Rust `write_f32` (protocol.rs lines 201-203) on the float's bit
pattern: identical byte output to `write_u32`. -/
def write_f32 (val : Nat) : List Nat := u32ToLe val

/-- The Rust `read_u32` (protocol.rs lines 215-219): reads
`buf[offset..offset+4]` little-endian and advances the offset.  The slice
indexing panics when fewer than 4 bytes remain; that is modelled by `none`. -/
def read_u32 (buf : List Nat) (offset : Nat) : Option (Nat × Nat) :=
  if offset + 4 ≤ buf.length then
    some (leToU32 ((buf.drop offset).take 4), offset + 4)
  else
    none

/-- The Rust `read_f32` (protocol.rs lines 205-209) on bit patterns: same
byte-level behaviour as `read_u32`. -/
def read_f32 (buf : List Nat) (offset : Nat) : Option (Nat × Nat) :=
  if offset + 4 ≤ buf.length then
    some (leToU32 ((buf.drop offset).take 4), offset + 4)
  else
    none

/-- Boolean serialization `if b { 1 } else { 0 }` used throughout
`Preset::to_bytes`. -/
def boolToU32 (b : Bool) : Nat := if b then 1 else 0

/-! ## Preset::to_bytes (protocol.rs lines 222-287) -/

/-- The 32-byte zero-padded name buffer (protocol.rs lines 225-230):
a zeroed `[u8; 32]` whose first `min (name.len()) 32` bytes are copied
from the name. -/
def namePadded (name : List Nat) : List Nat :=
  name.take 32 ++ List.replicate (32 - min name.length 32) 0

/-- Serialization of one oscillator (protocol.rs lines 232-239). -/
def oscBytes (osc : OscSettings) : List Nat :=
  write_u32 osc.waveform.toU32 ++ write_f32 osc.level ++ write_f32 osc.octave ++
    write_f32 osc.detune ++ write_u32 (boolToU32 osc.vibrato)

/-- Serialization of the filter section (protocol.rs lines 247-254). -/
def filterBytes (f : FilterSettings) : List Nat :=
  write_f32 f.cutoff ++ write_f32 f.resonance ++ write_f32 f.env_amt ++
    write_f32 f.attack ++ write_f32 f.decay ++ write_f32 f.sustain ++
    write_f32 f.release

/-- Serialization of the amp envelope section (protocol.rs lines 256-260). -/
def envBytes (e : EnvSettings) : List Nat :=
  write_f32 e.attack ++ write_f32 e.decay ++ write_f32 e.sustain ++
    write_f32 e.release

/-- Serialization of the LFO section (protocol.rs lines 265-269). -/
def lfoBytes (l : LfoSettings) : List Nat :=
  write_f32 l.freq ++ write_u32 l.waveform.toU32 ++ write_f32 l.vib_amt ++
    write_f32 l.filt_amt

/-- Serialization of the delay section (protocol.rs lines 271-275). -/
def delayBytes (d : DelaySettings) : List Nat :=
  write_f32 d.time ++ write_f32 d.feedback ++ write_f32 d.mix ++
    write_u32 (boolToU32 d.enabled)

/-- Serialization of the reverb section (protocol.rs lines 277-281). -/
def reverbBytes (r : ReverbSettings) : List Nat :=
  write_f32 r.size ++ write_f32 r.damping ++ write_f32 r.mix ++
    write_u32 (boolToU32 r.enabled)

/-- `Preset::to_bytes` (protocol.rs lines 222-287): the 200-byte record. -/
def Preset.to_bytes (p : Preset) : List Nat :=
  namePadded p.name ++
  oscBytes p.osc1 ++ oscBytes p.osc2 ++ oscBytes p.osc3 ++
  write_f32 p.noise ++
  write_f32 p.portamento ++
  filterBytes p.filter ++
  envBytes p.amp ++
  write_u32 (boolToU32 p.lfo_enabled) ++
  lfoBytes p.lfo ++
  delayBytes p.delay ++
  reverbBytes p.reverb ++
  write_u32 0

/-! ## Preset::from_bytes (protocol.rs lines 289-381) -/

/-- The name decoding step (protocol.rs lines 292-297):
`String::from_utf8_lossy(name_bytes).trim_matches(char::from(0))`.
The stored name bytes come from a Rust `String` zero-padded to 32 bytes, so
they are valid UTF-8 and `from_utf8_lossy` is the identity; `trim_matches`
of U+0000 then removes exactly the leading and trailing `0x00` bytes. -/
def trimZeros (l : List Nat) : List Nat :=
  ((l.dropWhile (· == 0)).reverse.dropWhile (· == 0)).reverse

/-- One iteration of the oscillator loop of `Preset::from_bytes`
(protocol.rs lines 299-315): five sequential 4-byte reads. -/
def readOsc (data : List Nat) (off : Nat) : Option (OscSettings × Nat) := do
  let (w, o) ← read_u32 data off
  let (lv, o) ← read_f32 data o
  let (oc, o) ← read_f32 data o
  let (dt, o) ← read_f32 data o
  let (vb, o) ← read_u32 data o
  some (⟨Waveform.ofU32 w, lv, oc, dt, vb != 0⟩, o)

/-- The `FilterSettings` construction of `Preset::from_bytes`
(protocol.rs lines 320-329): seven sequential reads. -/
def readFilter (data : List Nat) (off : Nat) :
    Option (FilterSettings × Nat) := do
  let (cutoff, o) ← read_f32 data off
  let (reso, o) ← read_f32 data o
  let (envAmt, o) ← read_f32 data o
  let (att, o) ← read_f32 data o
  let (dec, o) ← read_f32 data o
  let (sus, o) ← read_f32 data o
  let (rel, o) ← read_f32 data o
  some (⟨cutoff, reso, envAmt, att, dec, sus, rel⟩, o)

/-- The amp `EnvSettings` construction of `Preset::from_bytes`
(protocol.rs lines 331-337): four sequential reads. -/
def readEnv (data : List Nat) (off : Nat) : Option (EnvSettings × Nat) := do
  let (att, o) ← read_f32 data off
  let (dec, o) ← read_f32 data o
  let (sus, o) ← read_f32 data o
  let (rel, o) ← read_f32 data o
  some (⟨att, dec, sus, rel⟩, o)

/-- The `LfoSettings` construction of `Preset::from_bytes`
(protocol.rs lines 341-346). -/
def readLfo (data : List Nat) (off : Nat) : Option (LfoSettings × Nat) := do
  let (freq, o) ← read_f32 data off
  let (wave, o) ← read_u32 data o
  let (vib, o) ← read_f32 data o
  let (filt, o) ← read_f32 data o
  some (⟨freq, LfoWaveform.ofU32 wave, vib, filt⟩, o)

/-- The `DelaySettings` construction of `Preset::from_bytes`
(protocol.rs lines 348-354). -/
def readDelay (data : List Nat) (off : Nat) : Option (DelaySettings × Nat) := do
  let (time, o) ← read_f32 data off
  let (fb, o) ← read_f32 data o
  let (mix, o) ← read_f32 data o
  let (en, o) ← read_u32 data o
  some (⟨time, fb, mix, en != 0⟩, o)

/-- The `ReverbSettings` construction of `Preset::from_bytes`
(protocol.rs lines 356-362). -/
def readReverb (data : List Nat) (off : Nat) :
    Option (ReverbSettings × Nat) := do
  let (size, o) ← read_f32 data off
  let (damp, o) ← read_f32 data o
  let (mix, o) ← read_f32 data o
  let (en, o) ← read_u32 data o
  some (⟨size, damp, mix, en != 0⟩, o)

/-- `Preset::from_bytes` (protocol.rs lines 289-381).  The Rust function
reads fixed-width fields at a running offset from the byte slice `data`;
each slice access `data[offset..offset+4]` (and the initial `data[0..32]`
for the name) panics when `data` is too short — modelled by `none`.  The
three oscillators are read in order (the Rust code collects them in a
`Vec` and moves entries 0,1,2 into `osc1..osc3`). -/
def Preset.from_bytes (data : List Nat) : Option Preset := do
  let name ← if 32 ≤ data.length then some (trimZeros (data.take 32)) else none
  let (osc1, o) ← readOsc data 32
  let (osc2, o) ← readOsc data o
  let (osc3, o) ← readOsc data o
  let (noise, o) ← read_f32 data o
  let (porta, o) ← read_f32 data o
  let (filter, o) ← readFilter data o
  let (amp, o) ← readEnv data o
  let (lfoEn, o) ← read_u32 data o
  let (lfo, o) ← readLfo data o
  let (delay, o) ← readDelay data o
  let (reverb, o) ← readReverb data o
  let (_padding, _) ← read_u32 data o
  some
    { name := name
      osc1 := osc1
      osc2 := osc2
      osc3 := osc3
      noise := noise
      portamento := porta
      filter := filter
      amp := amp
      lfo_enabled := lfoEn != 0
      lfo := lfo
      delay := delay
      reverb := reverb }

theorem namePadded_length (name : List Nat) : (namePadded name).length = 32 := by
  simp only [namePadded, List.length_append, List.length_take,
    List.length_replicate]
  omega

theorem to_bytes_length_aux (p : Preset) : (Preset.to_bytes p).length = 200 := by
  simp [Preset.to_bytes, oscBytes, filterBytes, envBytes, lfoBytes,
    delayBytes, reverbBytes, write_u32, write_f32, u32ToLe, namePadded_length]

/-! ## Sequential-read lemmas for the decode proofs -/

theorem u32ToLe_length (x : Nat) : (u32ToLe x).length = 4 := rfl

theorem drop_chunk {data : List Nat} {off : Nat} {c suf : List Nat} {n : Nat}
    (h : data.drop off = c ++ suf) (hc : c.length = n) :
    data.drop (off + n) = suf := by
  rw [← List.drop_drop, h, List.drop_left' hc]

theorem read_u32_of_drop {data : List Nat} {off x : Nat} {suf : List Nat}
    (h : data.drop off = u32ToLe x ++ suf) (hx : x < 4294967296) :
    read_u32 data off = some (x, off + 4) := by
  have hlen : (data.drop off).length = data.length - off := List.length_drop ..
  rw [h] at hlen
  have hb : off + 4 ≤ data.length := by
    simp only [List.length_append, u32ToLe_length] at hlen
    rcases le_or_lt off data.length with h' | h'
    · omega
    · rw [List.drop_eq_nil_of_le (Nat.le_of_lt h')] at h
      have := congrArg List.length h
      simp only [List.length_nil, List.length_append, u32ToLe_length] at this
      omega
  rw [read_u32, if_pos hb, h, List.take_left' (u32ToLe_length x)]
  have : leToU32 (u32ToLe x) = x := by
    simp only [u32ToLe, leToU32]
    omega
  rw [this]

theorem read_f32_of_drop {data : List Nat} {off x : Nat} {suf : List Nat}
    (h : data.drop off = u32ToLe x ++ suf) (hx : x < 4294967296) :
    read_f32 data off = some (x, off + 4) :=
  read_u32_of_drop h hx

theorem waveform_ofU32_toU32 (w : Waveform) : Waveform.ofU32 w.toU32 = w := by
  cases w <;> rfl

theorem lfoWaveform_ofU32_toU32 (w : LfoWaveform) :
    LfoWaveform.ofU32 w.toU32 = w := by
  cases w <;> rfl

theorem waveform_toU32_lt (w : Waveform) : w.toU32 < 4294967296 := by
  cases w <;> decide

theorem lfoWaveform_toU32_lt (w : LfoWaveform) : w.toU32 < 4294967296 := by
  cases w <;> decide

theorem boolToU32_lt (b : Bool) : boolToU32 b < 4294967296 := by
  cases b <;> decide

theorem boolToU32_bne (b : Bool) : (boolToU32 b != 0) = b := by
  cases b <;> rfl

/-- Well-formedness of an `OscSettings` record: every `f32` bit pattern fits
in 32 bits (a type invariant of the Rust `f32` fields). -/
def OscSettings.wf (s : OscSettings) : Prop :=
  s.level < 4294967296 ∧ s.octave < 4294967296 ∧ s.detune < 4294967296

instance (s : OscSettings) : Decidable s.wf := by
  unfold OscSettings.wf; infer_instance

theorem readOsc_of_drop {data : List Nat} {off : Nat} {s : OscSettings}
    {suf : List Nat} (h : data.drop off = oscBytes s ++ suf) (hwf : s.wf) :
    readOsc data off = some (s, off + 20) := by
  obtain ⟨h1, h2, h3⟩ := hwf
  simp only [oscBytes, write_u32, write_f32, List.append_assoc] at h
  have d1 := drop_chunk h (u32ToLe_length _)
  have d2 := drop_chunk d1 (u32ToLe_length _)
  have d3 := drop_chunk d2 (u32ToLe_length _)
  have d4 := drop_chunk d3 (u32ToLe_length _)
  simp only [readOsc, read_u32_of_drop h (waveform_toU32_lt _),
    read_f32_of_drop d1 h1, read_f32_of_drop d2 h2, read_f32_of_drop d3 h3,
    read_u32_of_drop d4 (boolToU32_lt _), Option.bind_eq_bind,
    Option.some_bind, waveform_ofU32_toU32, boolToU32_bne,
    Option.some.injEq, Prod.mk.injEq]

/-- Well-formedness of a `FilterSettings` record: 32-bit `f32` patterns. -/
def FilterSettings.wf (f : FilterSettings) : Prop :=
  f.cutoff < 4294967296 ∧ f.resonance < 4294967296 ∧ f.env_amt < 4294967296 ∧
    f.attack < 4294967296 ∧ f.decay < 4294967296 ∧ f.sustain < 4294967296 ∧
    f.release < 4294967296

instance (f : FilterSettings) : Decidable f.wf := by
  unfold FilterSettings.wf; infer_instance

/-- Well-formedness of an `EnvSettings` record: 32-bit `f32` patterns. -/
def EnvSettings.wf (e : EnvSettings) : Prop :=
  e.attack < 4294967296 ∧ e.decay < 4294967296 ∧ e.sustain < 4294967296 ∧
    e.release < 4294967296

instance (e : EnvSettings) : Decidable e.wf := by
  unfold EnvSettings.wf; infer_instance

/-- Well-formedness of an `LfoSettings` record: 32-bit `f32` patterns. -/
def LfoSettings.wf (l : LfoSettings) : Prop :=
  l.freq < 4294967296 ∧ l.vib_amt < 4294967296 ∧ l.filt_amt < 4294967296

instance (l : LfoSettings) : Decidable l.wf := by
  unfold LfoSettings.wf; infer_instance

/-- Well-formedness of a `DelaySettings` record: 32-bit `f32` patterns. -/
def DelaySettings.wf (d : DelaySettings) : Prop :=
  d.time < 4294967296 ∧ d.feedback < 4294967296 ∧ d.mix < 4294967296

instance (d : DelaySettings) : Decidable d.wf := by
  unfold DelaySettings.wf; infer_instance

/-- Well-formedness of a `ReverbSettings` record: 32-bit `f32` patterns. -/
def ReverbSettings.wf (r : ReverbSettings) : Prop :=
  r.size < 4294967296 ∧ r.damping < 4294967296 ∧ r.mix < 4294967296

instance (r : ReverbSettings) : Decidable r.wf := by
  unfold ReverbSettings.wf; infer_instance

/-- Well-formedness of a `Preset`: the name entries are octets and every
`f32` bit pattern fits in 32 bits (type invariants of the Rust record). -/
def Preset.wf (p : Preset) : Prop :=
  (∀ b ∈ p.name, b < 256) ∧ p.osc1.wf ∧ p.osc2.wf ∧ p.osc3.wf ∧
    p.noise < 4294967296 ∧ p.portamento < 4294967296 ∧ p.filter.wf ∧
    p.amp.wf ∧ p.lfo.wf ∧ p.delay.wf ∧ p.reverb.wf

instance (p : Preset) : Decidable p.wf := by
  unfold Preset.wf; infer_instance

theorem readFilter_of_drop {data : List Nat} {off : Nat} {f : FilterSettings}
    {suf : List Nat} (h : data.drop off = filterBytes f ++ suf) (hwf : f.wf) :
    readFilter data off = some (f, off + 28) := by
  obtain ⟨h1, h2, h3, h4, h5, h6, h7⟩ := hwf
  simp only [filterBytes, write_f32, List.append_assoc] at h
  have d1 := drop_chunk h (u32ToLe_length _)
  have d2 := drop_chunk d1 (u32ToLe_length _)
  have d3 := drop_chunk d2 (u32ToLe_length _)
  have d4 := drop_chunk d3 (u32ToLe_length _)
  have d5 := drop_chunk d4 (u32ToLe_length _)
  have d6 := drop_chunk d5 (u32ToLe_length _)
  simp only [readFilter, read_f32_of_drop h h1, read_f32_of_drop d1 h2,
    read_f32_of_drop d2 h3, read_f32_of_drop d3 h4, read_f32_of_drop d4 h5,
    read_f32_of_drop d5 h6, read_f32_of_drop d6 h7, Option.bind_eq_bind,
    Option.some_bind, Option.some.injEq, Prod.mk.injEq]

theorem readEnv_of_drop {data : List Nat} {off : Nat} {e : EnvSettings}
    {suf : List Nat} (h : data.drop off = envBytes e ++ suf) (hwf : e.wf) :
    readEnv data off = some (e, off + 16) := by
  obtain ⟨h1, h2, h3, h4⟩ := hwf
  simp only [envBytes, write_f32, List.append_assoc] at h
  have d1 := drop_chunk h (u32ToLe_length _)
  have d2 := drop_chunk d1 (u32ToLe_length _)
  have d3 := drop_chunk d2 (u32ToLe_length _)
  simp only [readEnv, read_f32_of_drop h h1, read_f32_of_drop d1 h2,
    read_f32_of_drop d2 h3, read_f32_of_drop d3 h4, Option.bind_eq_bind,
    Option.some_bind, Option.some.injEq, Prod.mk.injEq]

theorem readLfo_of_drop {data : List Nat} {off : Nat} {l : LfoSettings}
    {suf : List Nat} (h : data.drop off = lfoBytes l ++ suf) (hwf : l.wf) :
    readLfo data off = some (l, off + 16) := by
  obtain ⟨h1, h2, h3⟩ := hwf
  simp only [lfoBytes, write_f32, write_u32, List.append_assoc] at h
  have d1 := drop_chunk h (u32ToLe_length _)
  have d2 := drop_chunk d1 (u32ToLe_length _)
  have d3 := drop_chunk d2 (u32ToLe_length _)
  simp only [readLfo, read_f32_of_drop h h1,
    read_u32_of_drop d1 (lfoWaveform_toU32_lt _), read_f32_of_drop d2 h2,
    read_f32_of_drop d3 h3, Option.bind_eq_bind, Option.some_bind,
    lfoWaveform_ofU32_toU32, Option.some.injEq, Prod.mk.injEq]

theorem readDelay_of_drop {data : List Nat} {off : Nat} {d : DelaySettings}
    {suf : List Nat} (h : data.drop off = delayBytes d ++ suf) (hwf : d.wf) :
    readDelay data off = some (d, off + 16) := by
  obtain ⟨h1, h2, h3⟩ := hwf
  simp only [delayBytes, write_f32, write_u32, List.append_assoc] at h
  have d1 := drop_chunk h (u32ToLe_length _)
  have d2 := drop_chunk d1 (u32ToLe_length _)
  have d3 := drop_chunk d2 (u32ToLe_length _)
  simp only [readDelay, read_f32_of_drop h h1, read_f32_of_drop d1 h2,
    read_f32_of_drop d2 h3, read_u32_of_drop d3 (boolToU32_lt _),
    Option.bind_eq_bind, Option.some_bind, boolToU32_bne,
    Option.some.injEq, Prod.mk.injEq]

theorem readReverb_of_drop {data : List Nat} {off : Nat} {r : ReverbSettings}
    {suf : List Nat} (h : data.drop off = reverbBytes r ++ suf) (hwf : r.wf) :
    readReverb data off = some (r, off + 16) := by
  obtain ⟨h1, h2, h3⟩ := hwf
  simp only [reverbBytes, write_f32, write_u32, List.append_assoc] at h
  have d1 := drop_chunk h (u32ToLe_length _)
  have d2 := drop_chunk d1 (u32ToLe_length _)
  have d3 := drop_chunk d2 (u32ToLe_length _)
  simp only [readReverb, read_f32_of_drop h h1, read_f32_of_drop d1 h2,
    read_f32_of_drop d2 h3, read_u32_of_drop d3 (boolToU32_lt _),
    Option.bind_eq_bind, Option.some_bind, boolToU32_bne,
    Option.some.injEq, Prod.mk.injEq]

theorem oscBytes_length (s : OscSettings) : (oscBytes s).length = 20 := by
  simp [oscBytes, write_u32, write_f32, u32ToLe]

theorem filterBytes_length (f : FilterSettings) :
    (filterBytes f).length = 28 := by
  simp [filterBytes, write_f32, u32ToLe]

theorem envBytes_length (e : EnvSettings) : (envBytes e).length = 16 := by
  simp [envBytes, write_f32, u32ToLe]

theorem lfoBytes_length (l : LfoSettings) : (lfoBytes l).length = 16 := by
  simp [lfoBytes, write_f32, write_u32, u32ToLe]

theorem delayBytes_length (d : DelaySettings) :
    (delayBytes d).length = 16 := by
  simp [delayBytes, write_f32, write_u32, u32ToLe]

theorem reverbBytes_length (r : ReverbSettings) :
    (reverbBytes r).length = 16 := by
  simp [reverbBytes, write_f32, write_u32, u32ToLe]

/-- A variant of `drop_chunk` with the target offset given explicitly, so
that rewriting hits the literal offsets produced while unfolding
`Preset.from_bytes`. -/
theorem drop_chunk' {data : List Nat} {off : Nat} {c suf : List Nat}
    {n : Nat} (h : data.drop off = c ++ suf) (hc : c.length = n)
    {off' : Nat} (ho : off' = off + n) : data.drop off' = suf := by
  rw [ho]; exact drop_chunk h hc

/-- Decoding a serialized preset followed by arbitrary trailing bytes
recovers every field; the name comes back as the NUL-trimmed 32-byte
buffer.  This is the byte-exact core of the round-trip property. -/
theorem from_bytes_to_bytes_append (p : Preset) (rest : List Nat)
    (hwf : p.wf) :
    Preset.from_bytes (Preset.to_bytes p ++ rest) =
      some { p with name := trimZeros (namePadded p.name) } := by
  obtain ⟨-, hw1, hw2, hw3, hnoise, hporta, hfilt, hamp, hlfo, hdel, hrev⟩ :=
    hwf
  have hshape : Preset.to_bytes p ++ rest =
      namePadded p.name ++ (oscBytes p.osc1 ++ (oscBytes p.osc2 ++
        (oscBytes p.osc3 ++ (write_f32 p.noise ++ (write_f32 p.portamento ++
        (filterBytes p.filter ++ (envBytes p.amp ++
        (write_u32 (boolToU32 p.lfo_enabled) ++ (lfoBytes p.lfo ++
        (delayBytes p.delay ++ (reverbBytes p.reverb ++
        (write_u32 0 ++ rest)))))))))))) := by
    simp only [Preset.to_bytes, List.append_assoc]
  have hlen : (Preset.to_bytes p ++ rest).length = 200 + rest.length := by
    simp [to_bytes_length_aux]
  have h32 : (Preset.to_bytes p ++ rest).drop 32 = oscBytes p.osc1 ++
      (oscBytes p.osc2 ++ (oscBytes p.osc3 ++ (write_f32 p.noise ++
      (write_f32 p.portamento ++ (filterBytes p.filter ++ (envBytes p.amp ++
      (write_u32 (boolToU32 p.lfo_enabled) ++ (lfoBytes p.lfo ++
      (delayBytes p.delay ++ (reverbBytes p.reverb ++
      (write_u32 0 ++ rest))))))))))) := by
    rw [hshape]; exact List.drop_left' (namePadded_length _)
  have h52 := drop_chunk' h32 (oscBytes_length _)
    (show (52 : Nat) = 32 + 20 by norm_num)
  have h72 := drop_chunk' h52 (oscBytes_length _)
    (show (72 : Nat) = 52 + 20 by norm_num)
  have h92 := drop_chunk' h72 (oscBytes_length _)
    (show (92 : Nat) = 72 + 20 by norm_num)
  have h96 := drop_chunk' h92 (show (write_f32 p.noise).length = 4 from rfl)
    (show (96 : Nat) = 92 + 4 by norm_num)
  have h100 := drop_chunk' h96
    (show (write_f32 p.portamento).length = 4 from rfl)
    (show (100 : Nat) = 96 + 4 by norm_num)
  have h128 := drop_chunk' h100 (filterBytes_length _)
    (show (128 : Nat) = 100 + 28 by norm_num)
  have h144 := drop_chunk' h128 (envBytes_length _)
    (show (144 : Nat) = 128 + 16 by norm_num)
  have h148 := drop_chunk' h144
    (show (write_u32 (boolToU32 p.lfo_enabled)).length = 4 from rfl)
    (show (148 : Nat) = 144 + 4 by norm_num)
  have h164 := drop_chunk' h148 (lfoBytes_length _)
    (show (164 : Nat) = 148 + 16 by norm_num)
  have h180 := drop_chunk' h164 (delayBytes_length _)
    (show (180 : Nat) = 164 + 16 by norm_num)
  have h196 := drop_chunk' h180 (reverbBytes_length _)
    (show (196 : Nat) = 180 + 16 by norm_num)
  have htake : (Preset.to_bytes p ++ rest).take 32 = namePadded p.name := by
    rw [hshape]; exact List.take_left' (namePadded_length _)
  rw [write_f32] at h92
  rw [write_f32] at h96
  rw [write_u32] at h144
  rw [write_u32] at h196
  simp only [Preset.from_bytes, hlen, htake,
    readOsc_of_drop h32 hw1, readOsc_of_drop h52 hw2,
    readOsc_of_drop h72 hw3, read_f32_of_drop h92 hnoise,
    read_f32_of_drop h96 hporta,
    readFilter_of_drop h100 hfilt, readEnv_of_drop h128 hamp,
    read_u32_of_drop h144 (boolToU32_lt _),
    readLfo_of_drop h148 hlfo, readDelay_of_drop h164 hdel,
    readReverb_of_drop h180 hrev,
    read_u32_of_drop h196 (show (0 : Nat) < 4294967296 by norm_num),
    Option.bind_eq_bind, Option.some_bind, boolToU32_bne]
  rw [if_pos (show 32 ≤ 200 + rest.length by omega)]

/-- The NUL-trim of the zero-padded name buffer gives back the original
name whenever the name fits in 32 bytes and has no leading or trailing
NUL byte. -/
theorem trimZeros_namePadded {name : List Nat} (hlen : name.length ≤ 32)
    (hhead : name.head? ≠ some 0) (hlast : name.getLast? ≠ some 0) :
    trimZeros (namePadded name) = name := by
  have hpad : namePadded name =
      name ++ List.replicate (32 - min name.length 32) 0 := by
    rw [namePadded, List.take_of_length_le hlen]
  cases hn : name with
  | nil =>
    subst hn
    rw [hpad]
    decide
  | cons a t =>
    subst hn
    have ha : ¬((a == 0) = true) := by
      simp only [List.head?_cons, ne_eq, Option.some.injEq] at hhead
      simpa using hhead
    have hlast' : (a :: t).getLast (List.cons_ne_nil a t) ≠ 0 := by
      rw [List.getLast?_eq_getLast _ (List.cons_ne_nil a t)] at hlast
      simpa using hlast
    rw [hpad, trimZeros]
    rw [show ((a :: t) ++ List.replicate (32 - min (a :: t).length 32) 0) =
      a :: (t ++ List.replicate (32 - min (a :: t).length 32) 0) from rfl]
    rw [List.dropWhile_cons, if_neg ha]
    rw [show a :: (t ++ List.replicate (32 - min (a :: t).length 32) 0) =
      (a :: t) ++ List.replicate (32 - min (a :: t).length 32) 0 from rfl]
    rw [List.reverse_append, List.reverse_replicate,
      List.dropWhile_append_of_pos (by simp)]
    have hrev : (a :: t).reverse =
        (a :: t).getLast (List.cons_ne_nil a t) ::
          ((a :: t).dropLast).reverse := by
      conv_lhs => rw [← List.dropLast_append_getLast (List.cons_ne_nil a t)]
      rw [List.reverse_append]
      rfl
    rw [hrev, List.dropWhile_cons, if_neg (by simpa using hlast'), ← hrev,
      List.reverse_reverse]

/-- The preset used to refute the round-trip claim as stated: a default
preset whose (well-formed, 1-byte, in-range) name is the single NUL byte. -/
def c1Bad : Preset := { Preset.default with name := [0] }

/-- C1 counterexample: the round-trip claim fails as stated.  `c1Bad` has
every field inside the documented ranges and a 1-byte name (so neither
exception of the claim applies: the name is not longer than 32 bytes and
no enum value is out of range), yet decoding its serialization does not
give the preset back: the NUL name byte is stripped by
`trim_matches(char::from(0))` in `Preset::from_bytes`. -/
theorem c1_roundtrip_counterexample :
    Preset.from_bytes (Preset.to_bytes c1Bad) ≠ some c1Bad ∧
      Preset.from_bytes (Preset.to_bytes c1Bad) =
        some { c1Bad with name := [] } := by
  constructor
  · decide
  · decide

/-- C1 (amended): for any well-formed preset whose field values are inside
the documented ranges, whose name fits in 32 bytes, and whose name has no
leading or trailing NUL byte, decoding the 200-byte serialization yields
the preset back bit-for-bit.  (Names longer than 32 bytes come back
truncated, out-of-range enum values come back coerced to the default
variant — situations that cannot arise from a Rust-side `Preset` value —
and, the amendment forced by the counterexample, leading/trailing NUL
bytes of the name come back stripped.) -/
theorem c1_preset_roundtrip (p : Preset) (hwf : p.wf)
    (hlen : p.name.length ≤ 32) (hhead : p.name.head? ≠ some 0)
    (hlast : p.name.getLast? ≠ some 0) :
    Preset.from_bytes (Preset.to_bytes p) = some p := by
  have h := from_bytes_to_bytes_append p [] hwf
  rw [List.append_nil] at h
  rw [h, trimZeros_namePadded hlen hhead hlast]

/-- C1 witness: the amended round-trip theorem applied at the default
preset, all hypotheses discharged by evaluation. -/
theorem c1_preset_roundtrip_witness :
    Preset.default.wf ∧
      Preset.from_bytes (Preset.to_bytes Preset.default) =
        some Preset.default :=
  ⟨by decide, c1_preset_roundtrip Preset.default (by decide) (by decide)
    (by decide) (by decide)⟩

/-- C9: the serialized record produced by `Preset::to_bytes` is exactly
200 bytes long (32 name + 3×20 oscillator + 4 noise + 4 portamento +
28 filter + 16 amp + 4 lfo-enable + 16 lfo + 16 delay + 16 reverb +
4 padding), for every preset regardless of its field values. -/
theorem c9_to_bytes_length (p : Preset) : (Preset.to_bytes p).length = 200 :=
  to_bytes_length_aux p

/-! ## Storage framer (src/protocol.rs lines 384-478) -/

/-- The preset bank (protocol.rs lines 384-386). -/
structure Storage where
  presets : List Preset
  deriving DecidableEq, Repr

/-- Nibble expansion (protocol.rs lines 408-413): every byte becomes two
4-bit values, high nibble first.  The Rust loop pushes
`(byte >> 4) & 0x0F` then `byte & 0x0F`. -/
def nibbleize : List Nat → List Nat
  | [] => []
  | b :: rest => ((b >>> 4) &&& 0x0F) :: (b &&& 0x0F) :: nibbleize rest

/-- De-nibbleization (protocol.rs lines 446-456): `payload.chunks(2)` with
an explicit length-2 check (`none` on a trailing odd chunk, mirroring the
`return None`), reconstructing each byte as `(high << 4) | (low & 0x0F)`.
The `high << 4` is a `u8` shift, hence the `% 256` wrap. -/
def denibble : List Nat → Option (List Nat)
  | [] => some []
  | [_] => none
  | high :: low :: rest => do
    let tail ← denibble rest
    some (((high <<< 4) % 256 ||| (low &&& 0x0F)) :: tail)

/-- `Storage::to_sysex` (protocol.rs lines 389-421): 16-byte header,
the concatenated 200-byte preset records, zero-padding up to 4096 bytes
(the Rust `while raw_data.len() < STORAGE_SIZE` push loop), nibble
expansion, and the SysEx wrapper. -/
def Storage.to_sysex (s : Storage) : List Nat :=
  let raw0 := write_u32 MAGIC ++ write_u32 VERSION ++
    write_u32 s.presets.length ++ write_u32 0 ++
    (s.presets.map Preset.to_bytes).flatten
  let raw := raw0 ++ List.replicate (STORAGE_SIZE - raw0.length) 0
  [SYSEX_START, MANUFACTURER_ID, MODEL_ID, CMD_WRITE_REQ] ++
    nibbleize raw ++ [SYSEX_END]

/-- Result of `Storage::from_sysex`: `ok` is `Some(storage)`, `reject` is
the clean `None` of a failed validation, and `panic` marks the runtime
panic of an out-of-bounds slice access during preset reading. -/
inductive DecodeResult where
  | ok (s : Storage)
  | reject
  | panic
  deriving DecidableEq, Repr

/-- The preset-reading loop of `Storage::from_sysex` (protocol.rs lines
468-474): reads `count` consecutive records at `offset`, advancing by
`PRESET_SIZE`.  The slice expression `&data[offset..]` panics when
`offset > data.len()`, and `Preset::from_bytes` panics when the slice is
shorter than a read requires. -/
def parsePresets (data : List Nat) : Nat → Nat → List Preset → DecodeResult
  | 0, _, acc => .ok ⟨acc⟩
  | n + 1, off, acc =>
    if off ≤ data.length then
      match Preset.from_bytes (data.drop off) with
      | some p => parsePresets data n (off + PRESET_SIZE) (acc ++ [p])
      | none => .panic
    else .panic

/-- `Storage::from_sysex` (protocol.rs lines 423-477). -/
def Storage.from_sysex (msg : List Nat) : DecodeResult :=
  if msg.length < 5 then .reject
  else if msg.getD 0 0 ≠ SYSEX_START ∨ msg.getD (msg.length - 1) 0 ≠ SYSEX_END
    then .reject
  else if msg.getD 1 0 ≠ MANUFACTURER_ID ∨ msg.getD 2 0 ≠ MODEL_ID then .reject
  else if msg.getD 3 0 ≠ CMD_WRITE_REQ then .reject
  else
    let payload := (msg.drop 4).dropLast
    if payload.length ≠ STORAGE_SIZE * 2 then .reject
    else
      match denibble payload with
      | none => .reject
      | some data =>
        match read_u32 data 0 with
        | none => .panic
        | some (magic, o) =>
          if magic ≠ MAGIC then .reject
          else
            match read_u32 data o with
            | none => .panic
            | some (_version, o) =>
              match read_u32 data o with
              | none => .panic
              | some (numPresets, o) =>
                match read_u32 data o with
                | none => .panic
                | some (_padding, o) => parsePresets data numPresets o []

/-- The magic word read from the de-nibbleized image of a frame (the first
validation performed on the image contents by `Storage::from_sysex`). -/
def imageMagic (msg : List Nat) : Option Nat :=
  match denibble ((msg.drop 4).dropLast) with
  | none => none
  | some data => (read_u32 data 0).map Prod.fst

theorem nibbleize_length (l : List Nat) :
    (nibbleize l).length = 2 * l.length := by
  induction l with
  | nil => rfl
  | cons b rest ih => simp [nibbleize, ih]; omega

/-- Reassembling the two nibbles of an octet gives the octet back. -/
theorem byte_nibble_roundtrip :
    ∀ b < 256, (((b >>> 4) &&& 0x0F) <<< 4) % 256 |||
      ((b &&& 0x0F) &&& 0x0F) = b := by decide

theorem denibble_nibbleize {l : List Nat} (h : ∀ b ∈ l, b < 256) :
    denibble (nibbleize l) = some l := by
  induction l with
  | nil => rfl
  | cons b rest ih =>
    have hb : b < 256 := h b (List.mem_cons_self b rest)
    have ih' := ih (fun x hx => h x (List.mem_cons_of_mem b hx))
    simp only [nibbleize, denibble, ih', Option.bind_eq_bind,
      Option.some_bind, byte_nibble_roundtrip b hb]

/-- An even-length payload always de-nibbleizes, to half as many bytes. -/
theorem denibble_even :
    ∀ l : List Nat, l.length % 2 = 0 →
      ∃ data, denibble l = some data ∧ data.length = l.length / 2
  | [], _ => ⟨[], rfl, rfl⟩
  | [x], h => by simp at h
  | a :: b :: rest, h => by
    have hr : rest.length % 2 = 0 := by
      simp only [List.length_cons] at h; omega
    obtain ⟨d, hd, hl⟩ := denibble_even rest hr
    refine ⟨((a <<< 4) % 256 ||| (b &&& 0x0F)) :: d, ?_, ?_⟩
    · simp [denibble, hd]
    · simp only [List.length_cons, hl]; omega

/-- C2: `Storage::from_sysex` returns `None` — with no partial result —
whenever the message is shorter than 5 bytes, does not start with 0xF0,
does not end with 0xF7, carries a manufacturer ID other than 0x7D or a
model ID other than 0x01, carries a command byte other than 0x02, has a
payload whose length is not 8192 bytes, or whose de-nibbleized image does
not begin with the magic 0x50445350. -/
theorem c2_from_sysex_rejects (msg : List Nat)
    (h : msg.length < 5 ∨
      msg.getD 0 0 ≠ SYSEX_START ∨
      msg.getD (msg.length - 1) 0 ≠ SYSEX_END ∨
      msg.getD 1 0 ≠ MANUFACTURER_ID ∨
      msg.getD 2 0 ≠ MODEL_ID ∨
      msg.getD 3 0 ≠ CMD_WRITE_REQ ∨
      ((msg.drop 4).dropLast).length ≠ STORAGE_SIZE * 2 ∨
      imageMagic msg ≠ some MAGIC) :
    Storage.from_sysex msg = .reject := by
  simp only [Storage.from_sysex]
  by_cases h1 : msg.length < 5
  · rw [if_pos h1]
  rw [if_neg h1]
  by_cases h2 : msg.getD 0 0 ≠ SYSEX_START ∨
      msg.getD (msg.length - 1) 0 ≠ SYSEX_END
  · rw [if_pos h2]
  rw [if_neg h2]
  by_cases h3 : msg.getD 1 0 ≠ MANUFACTURER_ID ∨ msg.getD 2 0 ≠ MODEL_ID
  · rw [if_pos h3]
  rw [if_neg h3]
  by_cases h4 : msg.getD 3 0 ≠ CMD_WRITE_REQ
  · rw [if_pos h4]
  rw [if_neg h4]
  by_cases h5 : ((msg.drop 4).dropLast).length ≠ STORAGE_SIZE * 2
  · rw [if_pos h5]
  rw [if_neg h5]
  have h8 : imageMagic msg ≠ some MAGIC := by tauto
  have hlenp : ((msg.drop 4).dropLast).length = STORAGE_SIZE * 2 := by
    omega
  obtain ⟨data, hdata, hdl⟩ := denibble_even _ (by rw [hlenp]; rfl)
  have hread : read_u32 data 0 =
      some (leToU32 ((data.drop 0).take 4), 0 + 4) := by
    rw [read_u32, if_pos]
    rw [hdl, hlenp]
    norm_num [STORAGE_SIZE]
  simp only [imageMagic, hdata, hread, Option.map_some'] at h8
  simp only [hdata, hread]
  rw [if_pos (by simpa using h8)]

/-- C2 witness: the empty message is shorter than 5 bytes and is rejected. -/
theorem c2_from_sysex_rejects_witness :
    ([] : List Nat).length < 5 ∧ Storage.from_sysex [] = .reject :=
  ⟨by decide, c2_from_sysex_rejects [] (Or.inl (by decide))⟩

/-! ## C3: the preset count is not bounded against the image capacity -/

theorem drop_replicate (n m : Nat) (a : Nat) :
    (List.replicate n a).drop m = List.replicate (n - m) a := by
  rcases le_or_lt m n with h | h
  · have : List.replicate n a =
        List.replicate m a ++ List.replicate (n - m) a := by
      rw [← List.replicate_add]
      congr 1
      omega
    rw [this, List.drop_left' (List.length_replicate m a)]
  · rw [List.drop_eq_nil_of_le (by simpa using Nat.le_of_lt h)]
    rw [show n - m = 0 by omega]
    rfl

/-- The all-zero preset: what `Preset::from_bytes` produces from a
200-byte run of zeros (empty name, `Sine` waveforms, zero bit patterns,
all flags clear). -/
def zeroPreset : Preset :=
  { name := []
    osc1 := ⟨.Sine, 0, 0, 0, false⟩
    osc2 := ⟨.Sine, 0, 0, 0, false⟩
    osc3 := ⟨.Sine, 0, 0, 0, false⟩
    noise := 0
    portamento := 0
    filter := ⟨0, 0, 0, 0, 0, 0, 0⟩
    amp := ⟨0, 0, 0, 0⟩
    lfo_enabled := false
    lfo := ⟨0, .Sine, 0, 0⟩
    delay := ⟨0, 0, 0, false⟩
    reverb := ⟨0, 0, 0, false⟩ }

theorem to_bytes_zeroPreset :
    Preset.to_bytes zeroPreset = List.replicate 200 0 := by decide

theorem from_bytes_replicate_zero {m : Nat} (hm : 200 ≤ m) :
    Preset.from_bytes (List.replicate m 0) = some zeroPreset := by
  have hsplit : List.replicate m 0 =
      Preset.to_bytes zeroPreset ++ List.replicate (m - 200) 0 := by
    rw [to_bytes_zeroPreset, ← List.replicate_add]
    congr 1
    omega
  rw [hsplit, from_bytes_to_bytes_append _ _ (by decide)]
  congr 1

/-- Reading past 200 bytes of zeros: an 80-byte run (what remains of the
4096-byte image at offset 4016) is too short and the decode panics. -/
theorem from_bytes_replicate_80 :
    Preset.from_bytes (List.replicate 80 0) = none := by decide

/-- The 4096-byte storage image of the C3 counterexample frame: valid
magic, version 7, a stored preset count of 21 (one more than the 20
records that fit in `4096 - 16` bytes), and an all-zero body. -/
def image21 : List Nat :=
  write_u32 MAGIC ++ write_u32 VERSION ++ write_u32 21 ++ write_u32 0 ++
    List.replicate 4080 0

/-- The C3 counterexample frame: correct start/end markers, IDs, command
byte and an 8192-byte nibbleized payload carrying `image21`. -/
def frame21 : List Nat :=
  [SYSEX_START, MANUFACTURER_ID, MODEL_ID, CMD_WRITE_REQ] ++
    nibbleize image21 ++ [SYSEX_END]

theorem image21_length : image21.length = 4096 := by
  simp only [image21, write_u32, u32ToLe, List.length_append,
    List.length_cons, List.length_nil, List.length_replicate]

theorem image21_bytes_lt : ∀ b ∈ image21, b < 256 := by
  intro b hb
  simp only [image21, write_u32, u32ToLe, List.mem_append,
    List.mem_cons, List.not_mem_nil, or_false, List.mem_replicate] at hb
  rcases hb with ((((h | h | h | h) | (h | h | h | h)) |
    (h | h | h | h)) | (h | h | h | h)) | ⟨-, h⟩ <;> omega

theorem image21_drop_sixteen (off : Nat) (h : 16 ≤ off) :
    image21.drop off = List.replicate (4096 - off) 0 := by
  have hsplit : image21 = (write_u32 MAGIC ++ write_u32 VERSION ++
      write_u32 21 ++ write_u32 0) ++ List.replicate 4080 0 := by
    simp only [image21, List.append_assoc]
  have h16 : (write_u32 MAGIC ++ write_u32 VERSION ++ write_u32 21 ++
      write_u32 0).length = 16 := rfl
  rw [hsplit, show off = 16 + (off - 16) by omega, ← List.drop_drop,
    List.drop_left' h16, drop_replicate]
  congr 1
  omega

/-- The preset loop on `image21` with a count of at least one more than
what remains: it walks records off the end of the image and panics. -/
theorem parsePresets_image21_panic :
    ∀ n, 1 ≤ n → n ≤ 21 → ∀ acc,
      parsePresets image21 n (16 + 200 * (21 - n)) acc = .panic := by
  intro n
  induction n with
  | zero => omega
  | succ n ih =>
    intro _ hle acc
    rcases Nat.eq_zero_or_pos n with hn | hn
    · subst hn
      rw [parsePresets]
      rw [if_pos (by rw [image21_length]; omega)]
      rw [show (16 + 200 * (21 - 1)) = 4016 by norm_num] at *
      rw [image21_drop_sixteen 4016 (by omega)]
      rw [show (4096 - 4016 : Nat) = 80 by norm_num, from_bytes_replicate_80]
    · rw [parsePresets]
      rw [if_pos (by rw [image21_length]; omega)]
      rw [image21_drop_sixteen _ (by omega)]
      rw [from_bytes_replicate_zero (by omega)]
      rw [show 16 + 200 * (21 - (n + 1)) + PRESET_SIZE =
        16 + 200 * (21 - n) by simp [PRESET_SIZE]; omega]
      exact ih hn (by omega) _

/-- C3: `Storage::from_sysex` does not bound the stored preset count
against the image capacity.  `frame21` has correct start/end markers, IDs,
command byte, an 8192-byte payload and valid magic, but a preset count of
21 — one more than the 20 records that fit in the 4096-byte image — and
decoding it runs the byte-slice read in `Preset::from_bytes` out of
bounds (a Rust panic, `DecodeResult.panic`) instead of returning `None`. -/
theorem c3_from_sysex_count_overflow :
    Storage.from_sysex frame21 = .panic := by
  have hnib : (nibbleize image21).length = 8192 := by
    rw [nibbleize_length, image21_length]
  have hlen : frame21.length = 8197 := by
    simp only [frame21, List.length_append, List.length_cons,
      List.length_nil, hnib]
  have hg0 : frame21.getD 0 0 = SYSEX_START := rfl
  have hg1 : frame21.getD 1 0 = MANUFACTURER_ID := rfl
  have hg2 : frame21.getD 2 0 = MODEL_ID := rfl
  have hg3 : frame21.getD 3 0 = CMD_WRITE_REQ := rfl
  have hgLast : frame21.getD (8197 - 1) 0 = SYSEX_END := by
    show ([SYSEX_START, MANUFACTURER_ID, MODEL_ID, CMD_WRITE_REQ] ++
      (nibbleize image21 ++ [SYSEX_END])).getD (8197 - 1) 0 = SYSEX_END
    rw [List.getD_append_right _ _ _ _ (by simp)]
    rw [List.getD_append_right _ _ _ _ (by rw [hnib]; norm_num)]
    rw [hnib]
    norm_num
  have hpayload : (frame21.drop 4).dropLast = nibbleize image21 := by
    show (([SYSEX_START, MANUFACTURER_ID, MODEL_ID, CMD_WRITE_REQ] ++
      (nibbleize image21 ++ [SYSEX_END])).drop 4).dropLast =
        nibbleize image21
    rw [List.drop_left' (by rfl), List.dropLast_concat]
  have hd0 : image21.drop 0 = u32ToLe MAGIC ++ (u32ToLe VERSION ++
      (u32ToLe 21 ++ (u32ToLe 0 ++ List.replicate 4080 0))) := by
    simp only [List.drop_zero, image21, write_u32, List.append_assoc]
  have hd4 := drop_chunk hd0 (u32ToLe_length _)
  have hd8 := drop_chunk hd4 (u32ToLe_length _)
  have hd12 := drop_chunk hd8 (u32ToLe_length _)
  have hparse := parsePresets_image21_panic 21 (by norm_num) (by norm_num) []
  rw [show 16 + 200 * (21 - 21) = 16 by norm_num] at hparse
  rw [Storage.from_sysex, hlen]
  rw [if_neg (by norm_num)]
  rw [hg0, hg1, hg2, hg3, hgLast]
  rw [if_neg (by simp)]
  rw [if_neg (by simp)]
  rw [if_neg (by simp)]
  dsimp only
  rw [hpayload, hnib]
  rw [if_neg (by norm_num [STORAGE_SIZE])]
  rw [denibble_nibbleize image21_bytes_lt]
  dsimp only
  rw [read_u32_of_drop hd0 (show MAGIC < 4294967296 by norm_num [MAGIC])]
  dsimp only
  rw [if_neg (by simp)]
  rw [read_u32_of_drop hd4 (show VERSION < 4294967296 by norm_num [VERSION])]
  dsimp only
  rw [read_u32_of_drop hd8 (show (21 : Nat) < 4294967296 by norm_num)]
  dsimp only
  rw [read_u32_of_drop hd12 (show (0 : Nat) < 4294967296 by norm_num)]
  dsimp only
  rw [show (0 + 4 + 4 + 4 + 4 : Nat) = 16 by norm_num]
  exact hparse

/-! ## C8: encode/decode round trip of the default one-preset bank -/

/-- The bank holding exactly one preset: the default "Init Patch". -/
def initBank : Storage := ⟨[Preset.default]⟩

/-- The 4096-byte storage image produced for `initBank`: 16-byte header
(magic, version, count 1, padding), the 200-byte default preset record,
and 3880 zero-padding bytes. -/
def imageInit : List Nat :=
  write_u32 MAGIC ++ write_u32 VERSION ++ write_u32 1 ++ write_u32 0 ++
    (Preset.to_bytes Preset.default ++ List.replicate 3880 0)

theorem write_u32_length (x : Nat) : (write_u32 x).length = 4 := rfl

theorem imageInit_length : imageInit.length = 4096 := by
  simp only [imageInit, List.length_append, write_u32_length,
    to_bytes_length_aux, List.length_replicate]

theorem default_to_bytes_lt : ∀ b ∈ Preset.to_bytes Preset.default,
    b < 256 := by decide

theorem imageInit_bytes_lt : ∀ b ∈ imageInit, b < 256 := by
  intro b hb
  simp only [imageInit, List.mem_append] at hb
  rcases hb with (((h | h) | h) | h) | h | h
  · simp only [write_u32, u32ToLe, List.mem_cons, List.not_mem_nil,
      or_false] at h
    rcases h with h | h | h | h <;> omega
  · simp only [write_u32, u32ToLe, List.mem_cons, List.not_mem_nil,
      or_false] at h
    rcases h with h | h | h | h <;> omega
  · simp only [write_u32, u32ToLe, List.mem_cons, List.not_mem_nil,
      or_false] at h
    rcases h with h | h | h | h <;> omega
  · simp only [write_u32, u32ToLe, List.mem_cons, List.not_mem_nil,
      or_false] at h
    rcases h with h | h | h | h <;> omega
  · exact default_to_bytes_lt b h
  · rw [List.eq_of_mem_replicate h]
    omega

theorem to_sysex_initBank :
    Storage.to_sysex initBank =
      [SYSEX_START, MANUFACTURER_ID, MODEL_ID, CMD_WRITE_REQ] ++
        (nibbleize imageInit ++ [SYSEX_END]) := by
  rw [Storage.to_sysex]
  simp only [initBank, List.map_cons, List.map_nil, List.flatten_cons,
    List.flatten_nil, List.append_nil, List.length_append, write_u32_length,
    to_bytes_length_aux, List.length_cons, List.length_nil, STORAGE_SIZE,
    imageInit, List.append_assoc]

theorem to_sysex_initBank_length_aux :
    (Storage.to_sysex initBank).length = 8197 := by
  rw [to_sysex_initBank]
  simp only [List.length_append, List.length_cons, List.length_nil,
    nibbleize_length, imageInit_length]

/-- C8 counterexample: the encoded frame for the default one-preset bank
is not 8202 bytes long (it is 8197: one start byte, three ID/command
bytes, 8192 nibble bytes, one end byte), refuting the byte count stated
in the claim. -/
theorem c8_frame_length_counterexample :
    (Storage.to_sysex initBank).length ≠ 8202 := by
  rw [to_sysex_initBank_length_aux]
  norm_num

/-- C8 (amended): encoding the bank containing exactly one preset with
name "Init Patch" and default field values produces a frame of exactly
8197 bytes (not 8202), and decoding that frame with `Storage::from_sysex`
yields the same bank back, so re-encoding it reproduces the identical
frame byte-for-byte. -/
theorem c8_init_bank_roundtrip :
    (Storage.to_sysex initBank).length = 8197 ∧
      Storage.from_sysex (Storage.to_sysex initBank) = .ok initBank := by
  refine ⟨to_sysex_initBank_length_aux, ?_⟩
  have hnib : (nibbleize imageInit).length = 8192 := by
    rw [nibbleize_length, imageInit_length]
  have hd0 : imageInit.drop 0 = u32ToLe MAGIC ++ (u32ToLe VERSION ++
      (u32ToLe 1 ++ (u32ToLe 0 ++ (Preset.to_bytes Preset.default ++
        List.replicate 3880 0)))) := by
    simp only [List.drop_zero, imageInit, write_u32, List.append_assoc]
  have hd4 := drop_chunk hd0 (u32ToLe_length _)
  have hd8 := drop_chunk hd4 (u32ToLe_length _)
  have hd12 := drop_chunk hd8 (u32ToLe_length _)
  have hd16 := drop_chunk hd12 (u32ToLe_length _)
  have hparse : parsePresets imageInit 1 (0 + 4 + 4 + 4 + 4) [] =
      .ok initBank := by
    rw [parsePresets]
    rw [if_pos (by rw [imageInit_length]; norm_num)]
    rw [hd16, from_bytes_to_bytes_append _ _ (by decide)]
    dsimp only
    rw [show trimZeros (namePadded Preset.default.name) =
      Preset.default.name from by decide]
    rw [parsePresets]
    rfl
  rw [to_sysex_initBank]
  have hlen : ([SYSEX_START, MANUFACTURER_ID, MODEL_ID, CMD_WRITE_REQ] ++
      (nibbleize imageInit ++ [SYSEX_END])).length = 8197 := by
    simp only [List.length_append, List.length_cons, List.length_nil, hnib]
  have hgLast : ([SYSEX_START, MANUFACTURER_ID, MODEL_ID, CMD_WRITE_REQ] ++
      (nibbleize imageInit ++ [SYSEX_END])).getD (8197 - 1) 0 =
        SYSEX_END := by
    rw [List.getD_append_right _ _ _ _ (by simp)]
    rw [List.getD_append_right _ _ _ _ (by rw [hnib]; norm_num)]
    rw [hnib]
    norm_num
  have hpayload : (([SYSEX_START, MANUFACTURER_ID, MODEL_ID,
      CMD_WRITE_REQ] ++ (nibbleize imageInit ++ [SYSEX_END])).drop
        4).dropLast = nibbleize imageInit := by
    rw [List.drop_left' (by rfl), List.dropLast_concat]
  rw [Storage.from_sysex, hlen]
  rw [if_neg (by norm_num)]
  rw [show ([SYSEX_START, MANUFACTURER_ID, MODEL_ID, CMD_WRITE_REQ] ++
    (nibbleize imageInit ++ [SYSEX_END])).getD 0 0 = SYSEX_START from rfl]
  rw [show ([SYSEX_START, MANUFACTURER_ID, MODEL_ID, CMD_WRITE_REQ] ++
    (nibbleize imageInit ++ [SYSEX_END])).getD 1 0 = MANUFACTURER_ID
    from rfl]
  rw [show ([SYSEX_START, MANUFACTURER_ID, MODEL_ID, CMD_WRITE_REQ] ++
    (nibbleize imageInit ++ [SYSEX_END])).getD 2 0 = MODEL_ID from rfl]
  rw [show ([SYSEX_START, MANUFACTURER_ID, MODEL_ID, CMD_WRITE_REQ] ++
    (nibbleize imageInit ++ [SYSEX_END])).getD 3 0 = CMD_WRITE_REQ
    from rfl]
  rw [hgLast]
  rw [if_neg (by simp)]
  rw [if_neg (by simp)]
  rw [if_neg (by simp)]
  dsimp only
  rw [hpayload, hnib]
  rw [if_neg (by norm_num [STORAGE_SIZE])]
  rw [denibble_nibbleize imageInit_bytes_lt]
  dsimp only
  rw [read_u32_of_drop hd0 (show MAGIC < 4294967296 by norm_num [MAGIC])]
  dsimp only
  rw [if_neg (by simp)]
  rw [read_u32_of_drop hd4 (show VERSION < 4294967296 by norm_num [VERSION])]
  dsimp only
  rw [read_u32_of_drop hd8 (show (1 : Nat) < 4294967296 by norm_num)]
  dsimp only
  rw [read_u32_of_drop hd12 (show (0 : Nat) < 4294967296 by norm_num)]
  dsimp only
  exact hparse

/-! ## C10: the version field is read and discarded -/

/-- Any message whose total length is not 8197 bytes is cleanly rejected:
either an early guard fails, or the payload length `len - 5` differs
from 8192. -/
theorem from_sysex_reject_of_length_ne {msg : List Nat}
    (h : msg.length ≠ 8197) : Storage.from_sysex msg = .reject := by
  rw [Storage.from_sysex]
  by_cases h1 : msg.length < 5
  · rw [if_pos h1]
  rw [if_neg h1]
  by_cases h2 : msg.getD 0 0 ≠ SYSEX_START ∨
      msg.getD (msg.length - 1) 0 ≠ SYSEX_END
  · rw [if_pos h2]
  rw [if_neg h2]
  by_cases h3 : msg.getD 1 0 ≠ MANUFACTURER_ID ∨ msg.getD 2 0 ≠ MODEL_ID
  · rw [if_pos h3]
  rw [if_neg h3]
  by_cases h4 : msg.getD 3 0 ≠ CMD_WRITE_REQ
  · rw [if_pos h4]
  rw [if_neg h4]
  dsimp only
  rw [if_pos]
  rw [List.length_dropLast, List.length_drop, STORAGE_SIZE]
  omega

/-- De-nibbleization distributes over an even-length prefix. -/
theorem denibble_append :
    ∀ A B : List Nat, A.length % 2 = 0 →
      denibble (A ++ B) =
        (denibble A).bind fun a => (denibble B).map fun b => a ++ b
  | [], B, _ => by cases hB : denibble B <;> simp [denibble, hB]
  | [x], _, h => by simp at h
  | a :: b :: rest, B, h => by
    have hr : rest.length % 2 = 0 := by
      simp only [List.length_cons] at h; omega
    have ih := denibble_append rest B hr
    show denibble (a :: b :: (rest ++ B)) = _
    rw [denibble, denibble, ih]
    cases hR : denibble rest <;> cases hB : denibble B <;>
      simp [Option.bind, Option.map]

/-- The preset loop only inspects the data's length and its suffixes from
offset 16 onwards, so it is insensitive to the 4 version bytes at
offsets 4..7. -/
theorem parsePresets_congr {d1 d2 : List Nat} (hlen : d1.length = d2.length)
    (hdrop : ∀ off, 16 ≤ off → d1.drop off = d2.drop off) :
    ∀ n off acc, 16 ≤ off →
      parsePresets d1 n off acc = parsePresets d2 n off acc := by
  intro n
  induction n with
  | zero => intro off acc _; rfl
  | succ n ih =>
    intro off acc hoff
    rw [parsePresets, parsePresets, hlen, hdrop off hoff]
    by_cases hb : off ≤ d2.length
    · rw [if_pos hb, if_pos hb]
      cases Preset.from_bytes (d2.drop off) with
      | none => rfl
      | some p => exact ih (off + PRESET_SIZE) (acc ++ [p]) (by omega)
    · rw [if_neg hb, if_neg hb]

/-- Reduction of `Storage::from_sysex` on a well-sized frame split as
12 bytes ++ 8 version nibbles ++ 8177 bytes: all validations and all
value reads other than the discarded version word are expressed without
looking at `v`'s contents. -/
theorem from_sysex_split {pre v post dA dv dB : List Nat}
    (hpre : pre.length = 12) (hv : v.length = 8)
    (hpost : post.length = 8177)
    (hdA : denibble (pre.drop 4) = some dA) (hdAl : dA.length = 4)
    (hdv : denibble v = some dv) (hdvl : dv.length = 4)
    (hdB : denibble post.dropLast = some dB) (hdBl : dB.length = 4088) :
    Storage.from_sysex (pre ++ v ++ post) =
      if pre.getD 0 0 ≠ SYSEX_START ∨ post.getD 8176 0 ≠ SYSEX_END then
        .reject
      else if pre.getD 1 0 ≠ MANUFACTURER_ID ∨ pre.getD 2 0 ≠ MODEL_ID then
        .reject
      else if pre.getD 3 0 ≠ CMD_WRITE_REQ then .reject
      else if leToU32 dA ≠ MAGIC then .reject
      else parsePresets (dA ++ (dv ++ dB)) (leToU32 (dB.take 4))
        (0 + 4 + 4 + 4 + 4) [] := by
  obtain ⟨b, t, rfl⟩ : ∃ b t, post = b :: t := by
    cases post with
    | nil => simp at hpost
    | cons b t => exact ⟨b, t, rfl⟩
  have hlen : (pre ++ (v ++ b :: t)).length = 8197 := by
    simp only [List.length_append, List.length_cons, hpre, hv]
    simp only [List.length_cons] at hpost
    omega
  have hg0 : (pre ++ (v ++ b :: t)).getD 0 0 = pre.getD 0 0 :=
    List.getD_append _ _ _ _ (by omega)
  have hg1 : (pre ++ (v ++ b :: t)).getD 1 0 = pre.getD 1 0 :=
    List.getD_append _ _ _ _ (by omega)
  have hg2 : (pre ++ (v ++ b :: t)).getD 2 0 = pre.getD 2 0 :=
    List.getD_append _ _ _ _ (by omega)
  have hg3 : (pre ++ (v ++ b :: t)).getD 3 0 = pre.getD 3 0 :=
    List.getD_append _ _ _ _ (by omega)
  have hgLast : (pre ++ (v ++ b :: t)).getD (8197 - 1) 0 =
      (b :: t).getD 8176 0 := by
    rw [List.getD_append_right _ _ _ _ (by omega)]
    rw [List.getD_append_right _ _ _ _ (by omega)]
    rw [hpre, hv]
  have hpay : ((pre ++ (v ++ b :: t)).drop 4).dropLast =
      pre.drop 4 ++ (v ++ (b :: t).dropLast) := by
    rw [List.drop_append_eq_append_drop,
      show (4 - pre.length) = 0 by omega, List.drop_zero]
    rw [show pre.drop 4 ++ (v ++ b :: t) = (pre.drop 4 ++ v) ++ b :: t by
      rw [List.append_assoc]]
    rw [List.dropLast_append_cons, List.append_assoc]
  have hpayLen : (pre.drop 4 ++ (v ++ (b :: t).dropLast)).length = 8192 := by
    simp only [List.length_append, List.length_drop, List.length_dropLast,
      hpre, hv]
    simp only [List.length_cons] at hpost ⊢
    omega
  have hden : denibble (pre.drop 4 ++ (v ++ (b :: t).dropLast)) =
      some (dA ++ (dv ++ dB)) := by
    rw [denibble_append _ _ (by rw [List.length_drop, hpre])]
    rw [denibble_append _ _ (by rw [hv])]
    rw [hdA, hdv, hdB]
    rfl
  have hD0 : (dA ++ (dv ++ dB)).drop 0 = dA ++ (dv ++ dB) :=
    List.drop_zero _
  have hD4 := drop_chunk hD0 hdAl
  have hD8 := drop_chunk hD4 hdvl
  have hdataLen : (dA ++ (dv ++ dB)).length = 4096 := by
    simp only [List.length_append, hdAl, hdvl, hdBl]
  rw [List.append_assoc]
  rw [Storage.from_sysex, hlen]
  rw [if_neg (show ¬((8197 : Nat) < 5) by norm_num)]
  rw [hg0, hg1, hg2, hg3, hgLast]
  dsimp only
  rw [hpay]
  rw [show (pre.drop 4 ++ (v ++ (b :: t).dropLast)).length =
    STORAGE_SIZE * 2 by rw [hpayLen, STORAGE_SIZE]]
  rw [if_neg (show ¬(STORAGE_SIZE * 2 ≠ STORAGE_SIZE * 2) by norm_num)]
  rw [hden]
  dsimp only
  rw [show read_u32 (dA ++ (dv ++ dB)) 0 = some (leToU32 dA, 0 + 4) by
    rw [read_u32, if_pos (by rw [hdataLen]; norm_num), List.drop_zero,
      List.take_left' hdAl]]
  dsimp only
  rw [show read_u32 (dA ++ (dv ++ dB)) (0 + 4) =
      some (leToU32 dv, 0 + 4 + 4) by
    rw [read_u32, if_pos (by rw [hdataLen]; norm_num), hD4,
      List.take_left' hdvl]]
  dsimp only
  rw [show read_u32 (dA ++ (dv ++ dB)) (0 + 4 + 4) =
      some (leToU32 (dB.take 4), 0 + 4 + 4 + 4) by
    rw [read_u32, if_pos (by rw [hdataLen]; norm_num), hD8]]
  dsimp only
  rw [show read_u32 (dA ++ (dv ++ dB)) (0 + 4 + 4 + 4) =
      some (leToU32 (((dA ++ (dv ++ dB)).drop (0 + 4 + 4 + 4)).take 4),
        0 + 4 + 4 + 4 + 4) by
    rw [read_u32, if_pos (by rw [hdataLen]; norm_num)]]

/-- C10: `Storage::from_sysex` never rejects a frame because of the
image's version field.  For any two frames that agree except on the 8
nibble bytes (frame offsets 12..19) encoding the 4-byte version word,
decoding produces the same result: both succeed with equal banks, both
are rejected, or both panic. -/
theorem c10_version_field_ignored (pre v1 v2 post : List Nat)
    (hpre : pre.length = 12) (hv1 : v1.length = 8) (hv2 : v2.length = 8) :
    Storage.from_sysex (pre ++ v1 ++ post) =
      Storage.from_sysex (pre ++ v2 ++ post) := by
  by_cases hL : (pre ++ v1 ++ post).length = 8197
  case neg =>
    have hL2 : (pre ++ v2 ++ post).length ≠ 8197 := by
      simp only [List.length_append, hpre, hv1, hv2] at hL ⊢
      omega
    rw [from_sysex_reject_of_length_ne hL,
      from_sysex_reject_of_length_ne hL2]
  case pos =>
    have hpost : post.length = 8177 := by
      simp only [List.length_append, hpre, hv1] at hL
      omega
    obtain ⟨dA, hdA, hdAl⟩ := denibble_even (pre.drop 4)
      (by rw [List.length_drop, hpre])
    rw [List.length_drop, hpre] at hdAl
    obtain ⟨dv1, hdv1, hdv1l⟩ := denibble_even v1 (by rw [hv1])
    rw [hv1] at hdv1l
    obtain ⟨dv2, hdv2, hdv2l⟩ := denibble_even v2 (by rw [hv2])
    rw [hv2] at hdv2l
    obtain ⟨dB, hdB, hdBl⟩ := denibble_even post.dropLast
      (by rw [List.length_dropLast, hpost])
    rw [List.length_dropLast, hpost] at hdBl
    rw [from_sysex_split hpre hv1 hpost hdA (by omega) hdv1 (by omega)
      hdB (by omega)]
    rw [from_sysex_split hpre hv2 hpost hdA (by omega) hdv2 (by omega)
      hdB (by omega)]
    have hdropGen : ∀ dv : List Nat, dv.length = 4 → ∀ off, 16 ≤ off →
        (dA ++ (dv ++ dB)).drop off = dB.drop (off - 8) := by
      intro dv hdvl off hoff
      rw [List.drop_append_eq_append_drop]
      rw [List.drop_append_eq_append_drop]
      rw [List.drop_eq_nil_of_le (show dA.length ≤ off by omega)]
      rw [List.drop_eq_nil_of_le (show dv.length ≤ off - dA.length by omega)]
      rw [List.nil_append, List.nil_append]
      congr 1
      omega
    have hdrop : ∀ off, 16 ≤ off →
        (dA ++ (dv1 ++ dB)).drop off = (dA ++ (dv2 ++ dB)).drop off := by
      intro off hoff
      rw [hdropGen dv1 (by omega) off hoff, hdropGen dv2 (by omega) off hoff]
    by_cases hc1 : pre.getD 0 0 ≠ SYSEX_START ∨ post.getD 8176 0 ≠ SYSEX_END
    · rw [if_pos hc1, if_pos hc1]
    rw [if_neg hc1, if_neg hc1]
    by_cases hc2 : pre.getD 1 0 ≠ MANUFACTURER_ID ∨ pre.getD 2 0 ≠ MODEL_ID
    · rw [if_pos hc2, if_pos hc2]
    rw [if_neg hc2, if_neg hc2]
    by_cases hc3 : pre.getD 3 0 ≠ CMD_WRITE_REQ
    · rw [if_pos hc3, if_pos hc3]
    rw [if_neg hc3, if_neg hc3]
    by_cases hc4 : leToU32 dA ≠ MAGIC
    · rw [if_pos hc4, if_pos hc4]
    rw [if_neg hc4, if_neg hc4]
    exact parsePresets_congr
      (by simp only [List.length_append]; omega) hdrop _ _ _ (by norm_num)

/-- C10 witness: two concrete frames differing only in the version-nibble
region decode to the same result. -/
theorem c10_version_field_ignored_witness :
    (List.replicate 12 0).length = 12 ∧ (List.replicate 8 0).length = 8 ∧
      (List.replicate 8 1).length = 8 ∧
      Storage.from_sysex (List.replicate 12 0 ++ List.replicate 8 0 ++ []) =
        Storage.from_sysex
          (List.replicate 12 0 ++ List.replicate 8 1 ++ []) :=
  ⟨by decide, by decide, by decide,
    c10_version_field_ignored (List.replicate 12 0) (List.replicate 8 0)
      (List.replicate 8 1) [] (by decide) (by decide) (by decide)⟩

/-! ## Live parameters and the structural-change detector
(src/audio.rs lines 144-264) -/

/-- One shared scalar cell (the DSP library's `Parameter`): an
atomically updatable `f32`, carried here as its 32-bit bit pattern.
Only `new`/`set` are used by this code. -/
structure Parameter where
  value : Nat
  deriving DecidableEq, Repr

def Parameter.new (val : Nat) : Parameter := ⟨val⟩

def Parameter.set (_ : Parameter) (val : Nat) : Parameter := ⟨val⟩

/-- IEEE-754 single bit pattern of `0.5f32`. -/
def bits_0_5 : Nat := 0x3F000000

/-- The live parameter set (audio.rs lines 144-177). -/
structure LiveParams where
  osc1_level : Parameter
  osc1_octave : Parameter
  osc1_detune : Parameter
  osc2_level : Parameter
  osc2_octave : Parameter
  osc2_detune : Parameter
  osc3_level : Parameter
  osc3_octave : Parameter
  osc3_detune : Parameter
  noise_level : Parameter
  cutoff : Parameter
  resonance : Parameter
  filter_env_amt : Parameter
  filter_attack : Parameter
  filter_decay : Parameter
  filter_sustain : Parameter
  filter_release : Parameter
  amp_attack : Parameter
  amp_decay : Parameter
  amp_sustain : Parameter
  amp_release : Parameter
  delay_time : Parameter
  delay_feedback : Parameter
  delay_mix : Parameter
  reverb_size : Parameter
  reverb_damping : Parameter
  reverb_mix : Parameter
  lfo_freq : Parameter
  lfo_vib_amt : Parameter
  lfo_filt_amt : Parameter
  last_struct_hash : Nat
  deriving DecidableEq, Repr

/-- `LiveParams::new` (audio.rs lines 179-214). -/
def LiveParams.new : LiveParams :=
  { osc1_level := Parameter.new bits_1_0
    osc1_octave := Parameter.new bits_0_0
    osc1_detune := Parameter.new bits_0_0
    osc2_level := Parameter.new bits_0_0
    osc2_octave := Parameter.new bits_0_0
    osc2_detune := Parameter.new bits_0_0
    osc3_level := Parameter.new bits_0_0
    osc3_octave := Parameter.new bits_0_0
    osc3_detune := Parameter.new bits_0_0
    noise_level := Parameter.new bits_0_0
    cutoff := Parameter.new bits_20000_0
    resonance := Parameter.new bits_0_0
    filter_env_amt := Parameter.new bits_0_0
    filter_attack := Parameter.new bits_0_0
    filter_decay := Parameter.new bits_0_0
    filter_sustain := Parameter.new bits_1_0
    filter_release := Parameter.new bits_0_0
    amp_attack := Parameter.new bits_0_01
    amp_decay := Parameter.new bits_0_1
    amp_sustain := Parameter.new bits_1_0
    amp_release := Parameter.new bits_0_1
    delay_time := Parameter.new bits_0_5
    delay_feedback := Parameter.new bits_0_0
    delay_mix := Parameter.new bits_0_0
    reverb_size := Parameter.new bits_0_5
    reverb_damping := Parameter.new bits_0_5
    reverb_mix := Parameter.new bits_0_0
    lfo_freq := Parameter.new bits_1_0
    lfo_vib_amt := Parameter.new bits_0_0
    lfo_filt_amt := Parameter.new bits_0_0
    last_struct_hash := 0 }

/-- `u64::wrapping_add`. -/
def wadd (a b : Nat) : Nat := (a + b) % 18446744073709551616

/-- The structural fingerprint computed inside `LiveParams::update`
(audio.rs lines 248-258): a chain of `wrapping_add`s over the shifted
non-continuous fields.  In the Rust source each `if c { 1 } else { 0 }
<< k` argument parses as `(if c { 1 } else { 0 }) << k`. -/
def structHash (p : Preset) : Nat :=
  wadd (wadd (wadd (wadd (wadd (wadd (wadd (wadd (wadd (wadd 0
    p.osc1.waveform.toU32)
    (p.osc2.waveform.toU32 <<< 4))
    (p.osc3.waveform.toU32 <<< 8))
    (boolToU32 p.osc1.vibrato <<< 12))
    (boolToU32 p.osc2.vibrato <<< 13))
    (boolToU32 p.osc3.vibrato <<< 14))
    (boolToU32 p.lfo_enabled <<< 15))
    (p.lfo.waveform.toU32 <<< 16))
    (boolToU32 p.delay.enabled <<< 20))
    (boolToU32 p.reverb.enabled <<< 21)

/-- `LiveParams::update` (audio.rs lines 216-263): pushes every continuous
scalar into its shared cell, stores the new structural fingerprint and
returns whether it differs from the previous one. -/
def LiveParams.update (lp : LiveParams) (p : Preset) : LiveParams × Bool :=
  ({ osc1_level := lp.osc1_level.set p.osc1.level
     osc1_octave := lp.osc1_octave.set p.osc1.octave
     osc1_detune := lp.osc1_detune.set p.osc1.detune
     osc2_level := lp.osc2_level.set p.osc2.level
     osc2_octave := lp.osc2_octave.set p.osc2.octave
     osc2_detune := lp.osc2_detune.set p.osc2.detune
     osc3_level := lp.osc3_level.set p.osc3.level
     osc3_octave := lp.osc3_octave.set p.osc3.octave
     osc3_detune := lp.osc3_detune.set p.osc3.detune
     noise_level := lp.noise_level.set p.noise
     cutoff := lp.cutoff.set p.filter.cutoff
     resonance := lp.resonance.set p.filter.resonance
     filter_env_amt := lp.filter_env_amt.set p.filter.env_amt
     filter_attack := lp.filter_attack.set p.filter.attack
     filter_decay := lp.filter_decay.set p.filter.decay
     filter_sustain := lp.filter_sustain.set p.filter.sustain
     filter_release := lp.filter_release.set p.filter.release
     amp_attack := lp.amp_attack.set p.amp.attack
     amp_decay := lp.amp_decay.set p.amp.decay
     amp_sustain := lp.amp_sustain.set p.amp.sustain
     amp_release := lp.amp_release.set p.amp.release
     delay_time := lp.delay_time.set p.delay.time
     delay_feedback := lp.delay_feedback.set p.delay.feedback
     delay_mix := lp.delay_mix.set p.delay.mix
     reverb_size := lp.reverb_size.set p.reverb.size
     reverb_damping := lp.reverb_damping.set p.reverb.damping
     reverb_mix := lp.reverb_mix.set p.reverb.mix
     lfo_freq := lp.lfo_freq.set p.lfo.freq
     lfo_vib_amt := lp.lfo_vib_amt.set p.lfo.vib_amt
     lfo_filt_amt := lp.lfo_filt_amt.set p.lfo.filt_amt
     last_struct_hash := structHash p },
   structHash p != lp.last_struct_hash)

/-- Equality of exactly the non-continuous fields that feed the
structural fingerprint. -/
def structuralEq (p1 p2 : Preset) : Prop :=
  p1.osc1.waveform = p2.osc1.waveform ∧
  p1.osc2.waveform = p2.osc2.waveform ∧
  p1.osc3.waveform = p2.osc3.waveform ∧
  p1.osc1.vibrato = p2.osc1.vibrato ∧
  p1.osc2.vibrato = p2.osc2.vibrato ∧
  p1.osc3.vibrato = p2.osc3.vibrato ∧
  p1.lfo_enabled = p2.lfo_enabled ∧
  p1.lfo.waveform = p2.lfo.waveform ∧
  p1.delay.enabled = p2.delay.enabled ∧
  p1.reverb.enabled = p2.reverb.enabled

instance (p1 p2 : Preset) : Decidable (structuralEq p1 p2) := by
  unfold structuralEq; infer_instance

theorem waveform_toU32_le (w : Waveform) : w.toU32 ≤ 4 := by
  cases w <;> decide

theorem lfoWaveform_toU32_le (w : LfoWaveform) : w.toU32 ≤ 3 := by
  cases w <;> decide

theorem boolToU32_le (b : Bool) : boolToU32 b ≤ 1 := by
  cases b <;> decide

theorem waveform_toU32_inj {a b : Waveform} (h : a.toU32 = b.toU32) :
    a = b := by
  cases a <;> cases b <;> first | rfl | simp [Waveform.toU32] at h

theorem lfoWaveform_toU32_inj {a b : LfoWaveform} (h : a.toU32 = b.toU32) :
    a = b := by
  cases a <;> cases b <;> first | rfl | simp [LfoWaveform.toU32] at h

theorem boolToU32_inj {a b : Bool} (h : boolToU32 a = boolToU32 b) :
    a = b := by
  cases a <;> cases b <;> first | rfl | simp [boolToU32] at h

/-- The bit-packed fingerprint is injective on exactly the ten
non-continuous fields: the field widths never overlap and the wrapping
additions never wrap. -/
theorem structHash_eq_iff (p1 p2 : Preset) :
    structHash p1 = structHash p2 ↔ structuralEq p1 p2 := by
  constructor
  · intro h
    have b1 := waveform_toU32_le p1.osc1.waveform
    have b2 := waveform_toU32_le p1.osc2.waveform
    have b3 := waveform_toU32_le p1.osc3.waveform
    have b4 := waveform_toU32_le p2.osc1.waveform
    have b5 := waveform_toU32_le p2.osc2.waveform
    have b6 := waveform_toU32_le p2.osc3.waveform
    have b7 := lfoWaveform_toU32_le p1.lfo.waveform
    have b8 := lfoWaveform_toU32_le p2.lfo.waveform
    have c1 := boolToU32_le p1.osc1.vibrato
    have c2 := boolToU32_le p1.osc2.vibrato
    have c3 := boolToU32_le p1.osc3.vibrato
    have c4 := boolToU32_le p1.lfo_enabled
    have c5 := boolToU32_le p1.delay.enabled
    have c6 := boolToU32_le p1.reverb.enabled
    have d1 := boolToU32_le p2.osc1.vibrato
    have d2 := boolToU32_le p2.osc2.vibrato
    have d3 := boolToU32_le p2.osc3.vibrato
    have d4 := boolToU32_le p2.lfo_enabled
    have d5 := boolToU32_le p2.delay.enabled
    have d6 := boolToU32_le p2.reverb.enabled
    simp only [structHash, wadd, Nat.shiftLeft_eq] at h
    norm_num at h
    refine ⟨waveform_toU32_inj (by omega), waveform_toU32_inj (by omega),
      waveform_toU32_inj (by omega), boolToU32_inj (by omega),
      boolToU32_inj (by omega), boolToU32_inj (by omega),
      boolToU32_inj (by omega), lfoWaveform_toU32_inj (by omega),
      boolToU32_inj (by omega), boolToU32_inj (by omega)⟩
  · intro h
    obtain ⟨h1, h2, h3, h4, h5, h6, h7, h8, h9, h10⟩ := h
    simp only [structHash, h1, h2, h3, h4, h5, h6, h7, h8, h9, h10]

/-- C5: after applying two presets in sequence through
`LiveParams::update`, the second call returns `false` exactly when the
two presets agree on all non-continuous fields (so differ only in
continuously-interpolatable scalars), and returns `true` when they
differ in any of: an oscillator waveform, an oscillator vibrato flag,
LFO enabled, LFO waveform, delay enabled, or reverb enabled. -/
theorem c5_update_changed (s : LiveParams) (p1 p2 : Preset) :
    (structuralEq p1 p2 →
      (LiveParams.update (LiveParams.update s p1).1 p2).2 = false) ∧
    (¬ structuralEq p1 p2 →
      (LiveParams.update (LiveParams.update s p1).1 p2).2 = true) := by
  have hsnd : ∀ (lp : LiveParams) (p : Preset),
      (LiveParams.update lp p).2 = (structHash p != lp.last_struct_hash) := by
    intro lp p
    simp only [LiveParams.update]
  have hfst : ∀ (lp : LiveParams) (p : Preset),
      (LiveParams.update lp p).1.last_struct_hash = structHash p := by
    intro lp p
    simp only [LiveParams.update]
  constructor
  · intro h
    rw [hsnd, hfst]
    simp only [bne_eq_false_iff_eq]
    exact ((structHash_eq_iff p1 p2).mpr h).symm
  · intro h
    rw [hsnd, hfst]
    simp only [bne_iff_ne, ne_eq]
    intro hEq
    exact h ((structHash_eq_iff p1 p2).mp hEq.symm)

/-- A default preset with the LFO switched on: structurally different
from the plain default. -/
def presetLfoOn : Preset := { Preset.default with lfo_enabled := true }

/-- C5 witness: at concrete inputs, re-applying the same preset reports
no structural change, while toggling `lfo_enabled` reports one. -/
theorem c5_update_changed_witness :
    structuralEq Preset.default Preset.default ∧
    (LiveParams.update (LiveParams.update LiveParams.new Preset.default).1
      Preset.default).2 = false ∧
    ¬ structuralEq Preset.default presetLfoOn ∧
    (LiveParams.update (LiveParams.update LiveParams.new Preset.default).1
      presetLfoOn).2 = true :=
  ⟨by decide,
   (c5_update_changed LiveParams.new Preset.default Preset.default).1
     (by decide),
   by decide,
   (c5_update_changed LiveParams.new Preset.default presetLfoOn).2
     (by decide)⟩

/-! ## C4: the bounded command queue (src/audio.rs lines 320-474) -/

/-- The commands carried by the audio queue (audio.rs lines 324-329).
The note frequency is carried as an `f32` bit pattern; the payloads are
irrelevant to the queueing behaviour. -/
inductive AudioCommand where
  | NoteOn (freq : Nat)
  | NoteOff
  | UpdatePreset (p : Preset)
  | RebuildVoice (p : Preset)
  deriving DecidableEq, Repr

/-- Modelled from the `crossbeam_channel` contract used by `AudioManager`
(audio.rs line 344 creates `crossbeam_channel::bounded(16)` and
`note_on`/`note_off`/`update_preset` call the blocking `Sender::send`,
audio.rs lines 453-474): on a bounded channel whose receiver is alive and
performs no drain, `send` appends the message while the buffer holds
fewer than `cap` messages and otherwise blocks the caller until space
appears.  A blocked send is modelled as `none`. -/
def crossbeamSend (cap : Nat) (queue : List AudioCommand)
    (cmd : AudioCommand) : Option (List AudioCommand) :=
  if queue.length < cap then some (queue ++ [cmd]) else none

/-- A sequence of producer-side enqueue attempts with no consumer drain:
`none` as soon as any send blocks. -/
def sendAll (cap : Nat) (cmds : List AudioCommand)
    (queue : List AudioCommand) : Option (List AudioCommand) :=
  match cmds with
  | [] => some queue
  | c :: rest =>
    match crossbeamSend cap queue c with
    | some q => sendAll cap rest q
    | none => none

/-- C4 (code bug): enqueueing 17 `NoteOn` events through the capacity-16
channel without any drain does not drop the 17th event — the first 16
sends fill the buffer and the 17th send BLOCKS the control context
(`AudioManager::note_on` calls the blocking `crossbeam_channel`
`Sender::send`, not `try_send`), contradicting the claim's (and §4.5's)
drop-and-report requirement. -/
theorem c4_seventeenth_note_on_blocks :
    sendAll 16 (List.replicate 16 (.NoteOn 0)) [] =
      some (List.replicate 16 (.NoteOn 0)) ∧
    sendAll 16 (List.replicate 17 (.NoteOn 0)) [] = none := by
  constructor
  · decide
  · decide

/-! ## C6: the portamento pitch controller (src/audio.rs lines 62-140)

The `f32` arithmetic of the controller is modelled over exact rationals
`ℚ` (the idealized real-number semantics of the floating-point code). -/

/-- `PortamentoState` (audio.rs lines 64-67). -/
structure PortamentoState where
  current_freq : ℚ
  counter : Nat
  deriving DecidableEq, Repr

/-- `f32::clamp` as used in `amount.clamp(0.0, 0.999)` (audio.rs line
105): below the minimum gives the minimum, above the maximum gives the
maximum. -/
def clampQ (x lo hi : ℚ) : ℚ := if x < lo then lo else if x > hi then hi else x

/-- The control-rate update of `PortamentoFreq::process` executed on the
samples where `counter % 32 == 0` (audio.rs lines 110-122), with `p` the
clamped glide amount and `factor = 1 - p`: with `p > 0`, snap to the
target when `|target - current| < 0.1`, otherwise move by
`diff * factor`; with `p = 0` the current frequency is set to the target
outright. -/
def portaTick (target current p : ℚ) : ℚ :=
  if 0 < p then
    if |target - current| < 1/10 then target
    else current + (target - current) * (1 - p)
  else target

/-- `PortamentoFreq::process` (audio.rs lines 97-127) over `n` samples:
the target and amount are read once per block; every 32nd sample (by the
running counter) the control-rate update fires, and every sample outputs
the current frequency (zero-order hold between ticks). -/
def PortamentoFreq.process (target amount : ℚ) (st : PortamentoState) :
    Nat → List ℚ × PortamentoState
  | 0 => ([], st)
  | n + 1 =>
    let p := clampQ amount 0 (999/1000)
    let cur := if st.counter % 32 = 0 then
      portaTick target st.current_freq p else st.current_freq
    let res := PortamentoFreq.process target amount ⟨cur, st.counter + 1⟩ n
    (cur :: res.1, res.2)

theorem clampQ_idem (x : ℚ) :
    clampQ (clampQ x 0 (999/1000)) 0 (999/1000) = clampQ x 0 (999/1000) := by
  unfold clampQ
  split_ifs <;> first | rfl | linarith

theorem clampQ_nonneg (x : ℚ) : 0 ≤ clampQ x 0 (999/1000) := by
  unfold clampQ
  split_ifs <;> linarith

theorem clampQ_le (x : ℚ) : clampQ x 0 (999/1000) ≤ 999/1000 := by
  unfold clampQ
  split_ifs <;> linarith

/-- Clamping is performed inside `process` itself, so feeding the already
clamped amount gives the identical block behaviour. -/
theorem process_clamp (target amount : ℚ) :
    ∀ (n : Nat) (st : PortamentoState),
      PortamentoFreq.process target amount st n =
        PortamentoFreq.process target (clampQ amount 0 (999/1000)) st n := by
  intro n
  induction n with
  | zero => intro st; rfl
  | succ n ih =>
    intro st
    rw [PortamentoFreq.process, PortamentoFreq.process, clampQ_idem, ih]

/-- With glide amount 0 every control tick snaps the current frequency to
the target, and the output holds the last value between ticks: sample `i`
is the target if some counter value in `c0..c0+i` was a multiple of 32,
and the initial frequency otherwise. -/
theorem process_zero_glide (target : ℚ) :
    ∀ (n : Nat) (c0 : Nat) (cur : ℚ) (i : Nat), i < n →
      ((PortamentoFreq.process target 0 ⟨cur, c0⟩ n).1)[i]? =
        some (if (List.range (i + 1)).any (fun j => (c0 + j) % 32 == 0)
          then target else cur) := by
  intro n
  induction n with
  | zero => intro c0 cur i hi; omega
  | succ n ih =>
    intro c0 cur i hi
    have hp : clampQ 0 0 (999/1000) = 0 := by norm_num [clampQ]
    have htick : portaTick target cur 0 = target := by
      rw [portaTick, if_neg (by norm_num)]
    rw [PortamentoFreq.process]
    simp only [hp, htick]
    cases i with
    | zero =>
      by_cases h : c0 % 32 = 0
      · simp [h]
      · simp [h]
    | succ i =>
      have hrange : (List.range (i + 1 + 1)).any
          (fun j => (c0 + j) % 32 == 0) =
          (((c0 % 32 == 0) : Bool) ||
            (List.range (i + 1)).any (fun j => (c0 + 1 + j) % 32 == 0)) := by
        rw [List.range_succ_eq_map]
        rw [List.any_cons, List.any_map]
        have : ((fun j => (c0 + j) % 32 == 0) ∘ Nat.succ) =
            (fun j => (c0 + 1 + j) % 32 == 0) := by
          funext j
          simp only [Function.comp]
          rw [show c0 + Nat.succ j = c0 + 1 + j by omega]
        rw [this, Nat.add_zero]
      by_cases h : c0 % 32 = 0
      · rw [if_pos h]
        simp only [List.getElem?_cons_succ]
        rw [ih (c0 + 1) target i (by omega)]
        rw [hrange]
        simp only [h]
        simp
      · rw [if_neg h]
        simp only [List.getElem?_cons_succ]
        rw [ih (c0 + 1) cur i (by omega)]
        rw [hrange]
        have : ((c0 % 32 == 0) : Bool) = false := by
          simpa using h
        rw [this, Bool.false_or]

/-- C6: portamento per-block processing.  (1) With glide amount 0 the
current frequency is set to the target at each sample where the counter
is a multiple of 32 and held between ticks, so it reaches the target
within one 32-sample control tick.  (2) The effective amount is the hard
clamp of `amount` to `[0, 0.999]`, and processing the clamped amount is
identical.  (3) With a positive clamped amount the tick snaps exactly to
the target when `|target − current| < 0.1`.  (4) Otherwise the tick moves
the current frequency by `diff × factor` with `factor = 1 − p`, which
brings it monotonically closer to the target (the new value stays between
the old value and the target, and the distance scales by `p < 1`). -/
theorem c6_portamento_glide (amount target cur : ℚ) (c0 n i : Nat) :
    (amount = 0 → i < n →
      ((PortamentoFreq.process target amount ⟨cur, c0⟩ n).1)[i]? =
        some (if (List.range (i + 1)).any (fun j => (c0 + j) % 32 == 0)
          then target else cur)) ∧
    (0 ≤ clampQ amount 0 (999/1000) ∧ clampQ amount 0 (999/1000) ≤ 999/1000 ∧
      ∀ (m : Nat) (st : PortamentoState),
        PortamentoFreq.process target amount st m =
          PortamentoFreq.process target (clampQ amount 0 (999/1000)) st m) ∧
    (0 < clampQ amount 0 (999/1000) → |target - cur| < 1/10 →
      portaTick target cur (clampQ amount 0 (999/1000)) = target) ∧
    (0 < clampQ amount 0 (999/1000) → ¬(|target - cur| < 1/10) →
      portaTick target cur (clampQ amount 0 (999/1000)) =
        cur + (target - cur) * (1 - clampQ amount 0 (999/1000)) ∧
      |target - portaTick target cur (clampQ amount 0 (999/1000))| =
        clampQ amount 0 (999/1000) * |target - cur| ∧
      min cur target ≤ portaTick target cur (clampQ amount 0 (999/1000)) ∧
      portaTick target cur (clampQ amount 0 (999/1000)) ≤ max cur target) := by
  set p := clampQ amount 0 (999/1000) with hp
  have hp0 : 0 ≤ p := clampQ_nonneg amount
  have hp1 : p ≤ 999/1000 := clampQ_le amount
  refine ⟨?_, ⟨hp0, hp1, fun m st => process_clamp target amount m st⟩,
    ?_, ?_⟩
  · intro ha hi
    subst ha
    exact process_zero_glide target n c0 cur i hi
  · intro hppos hsnap
    rw [portaTick, if_pos hppos, if_pos hsnap]
  · intro hppos hfar
    have hmove : portaTick target cur p =
        cur + (target - cur) * (1 - p) := by
      rw [portaTick, if_pos hppos, if_neg hfar]
    refine ⟨hmove, ?_, ?_, ?_⟩
    · rw [hmove]
      have : target - (cur + (target - cur) * (1 - p)) =
          p * (target - cur) := by ring
      rw [this, abs_mul, abs_of_pos hppos]
    · rw [hmove]
      rcases le_total cur target with hct | hct
      · rw [min_eq_left hct]
        nlinarith
      · rw [min_eq_right hct]
        nlinarith
    · rw [hmove]
      rcases le_total cur target with hct | hct
      · rw [max_eq_right hct]
        nlinarith
      · rw [max_eq_left hct]
        nlinarith

/-- C6 witness: the theorem applied at concrete inputs — a zero-glide
block that snaps its first sample to the target, a positive-glide tick
that moves by `diff × factor`, and a near-target tick that snaps. -/
theorem c6_portamento_glide_witness :
    (((PortamentoFreq.process 5 0 ⟨3, 0⟩ 1).1)[0]? = some 5) ∧
    portaTick 5 3 (clampQ (1/2) 0 (999/1000)) =
      3 + (5 - 3) * (1 - clampQ (1/2) 0 (999/1000)) ∧
    portaTick (3 + 1/20) 3 (clampQ (1/2) 0 (999/1000)) = 3 + 1/20 := by
  refine ⟨?_, ?_, ?_⟩
  · have h := (c6_portamento_glide 0 5 3 0 1 0).1 rfl (by norm_num)
    simpa using h
  · exact ((c6_portamento_glide (1/2) 5 3 0 1 0).2.2.2
      (by norm_num [clampQ])
      (by rw [show (5 - 3 : ℚ) = 2 by norm_num]; rw [abs_of_pos] <;>
        norm_num)).1
  · exact (c6_portamento_glide (1/2) (3 + 1/20) 3 0 1 0).2.2.1
      (by norm_num [clampQ])
      (by rw [show (3 + 1/20 - 3 : ℚ) = 1/20 by ring]; rw [abs_of_pos] <;>
        norm_num)

/-! ## C7: the fast LFO (src/fast_lfo.rs)

The `f32` arithmetic is modelled over exact rationals `ℚ`. -/

inductive FastLfoWaveform where
  | Sine | Triangle | Saw | Square
  deriving DecidableEq, Repr

/-- `FastLfo` (fast_lfo.rs lines 12-19). -/
structure FastLfo where
  frequency : ℚ
  waveform : FastLfoWaveform
  min : ℚ
  max : ℚ
  phase : ℚ
  sample_rate : ℚ
  deriving DecidableEq, Repr

/-- `FastLfo::new` (fast_lfo.rs lines 22-31): default range `[-1, 1]`,
phase 0. -/
def FastLfo.new (frequency : ℚ) (waveform : FastLfoWaveform)
    (sample_rate : ℚ) : FastLfo :=
  { frequency := frequency, waveform := waveform, min := -1, max := 1,
    phase := 0, sample_rate := sample_rate }

/-- `FastLfo::set_range` (fast_lfo.rs lines 33-36). -/
def FastLfo.set_range (l : FastLfo) (mn mx : ℚ) : FastLfo :=
  { l with min := mn, max := mx }

/-- One sample of `FastLfo::process` (fast_lfo.rs lines 57-91): advance
the phase by `frequency * (1 / sample_rate)`, subtract 1 once when the
phase reaches 1, shape the waveform from the phase, and remap the raw
`-1..1` value into `[min, max]` via `offset + (raw + 1) * 0.5 * range`.
The per-block constants `inv_sr`, `phase_inc`, `range`, `offset` depend
only on fields the loop never changes, so they are recomputed here per
sample with identical values. -/
def FastLfo.step (l : FastLfo) : ℚ × FastLfo :=
  let inv_sr := 1 / l.sample_rate
  let phase_inc := l.frequency * inv_sr
  let range := l.max - l.min
  let offset := l.min
  let phase1 := l.phase + phase_inc
  let phase2 := if phase1 ≥ 1 then phase1 - 1 else phase1
  let raw : ℚ :=
    match l.waveform with
    | .Sine =>
      let t := phase2 * 2 - 1
      let t2 := 2 * |t| - 1
      t2 * (3/2 - 1/2 * t2 * t2)
    | .Saw => 2 * phase2 - 1
    | .Square => if phase2 < 1/2 then 1 else -1
    | .Triangle =>
      let t := phase2 * 2 - 1
      2 * |t| - 1
  let normalized := (raw + 1) * (1/2)
  (offset + normalized * range, { l with phase := phase2 })

/-- `FastLfo::process` over a block of `n` samples. -/
def FastLfo.process (l : FastLfo) : Nat → List ℚ × FastLfo
  | 0 => ([], l)
  | n + 1 =>
    let s := (l.step).1
    let l1 := (l.step).2
    let res := l1.process n
    (s :: res.1, res.2)

theorem FastLfo.step_config (l : FastLfo) :
    (l.step).2.frequency = l.frequency ∧ (l.step).2.waveform = l.waveform ∧
    (l.step).2.min = l.min ∧ (l.step).2.max = l.max ∧
    (l.step).2.sample_rate = l.sample_rate :=
  ⟨rfl, rfl, rfl, rfl, rfl⟩

theorem FastLfo.step_phase (l : FastLfo) :
    (l.step).2.phase =
      if l.phase + l.frequency * (1 / l.sample_rate) ≥ 1 then
        l.phase + l.frequency * (1 / l.sample_rate) - 1
      else l.phase + l.frequency * (1 / l.sample_rate) := rfl

theorem FastLfo.step_phase_mem (l : FastLfo)
    (h0 : 0 ≤ l.phase) (h1 : l.phase < 1)
    (hi0 : 0 ≤ l.frequency * (1 / l.sample_rate))
    (hi1 : l.frequency * (1 / l.sample_rate) ≤ 1) :
    0 ≤ (l.step).2.phase ∧ (l.step).2.phase < 1 := by
  rw [FastLfo.step_phase]
  split_ifs with h
  · constructor <;> linarith
  · constructor <;> linarith

/-- The parabolic sine shaper `t * (1.5 - 0.5 * t * t)` maps `[-1, 1]`
into `[-1, 1]`: `1 ± shaper(t)` factor as `(1 ∓ t)² (t ± 2) / 2`. -/
theorem sineShaper_bounds (t : ℚ) (h1 : -1 ≤ t) (h2 : t ≤ 1) :
    -1 ≤ t * (3/2 - 1/2 * t * t) ∧ t * (3/2 - 1/2 * t * t) ≤ 1 := by
  constructor
  · have key : t * (3/2 - 1/2 * t * t) + 1 =
        (1/2) * ((t + 1)^2 * (2 - t)) := by ring
    have hnn := mul_nonneg (sq_nonneg (t + 1))
      (show (0 : ℚ) ≤ 2 - t by linarith)
    linarith
  · have key : 1 - t * (3/2 - 1/2 * t * t) =
        (1/2) * ((1 - t)^2 * (t + 2)) := by ring
    have hnn := mul_nonneg (sq_nonneg (1 - t))
      (show (0 : ℚ) ≤ t + 2 by linarith)
    linarith

theorem FastLfo.step_sample_mem (l : FastLfo)
    (hmm : l.min ≤ l.max)
    (h0 : 0 ≤ l.phase) (h1 : l.phase < 1)
    (hi0 : 0 ≤ l.frequency * (1 / l.sample_rate))
    (hi1 : l.frequency * (1 / l.sample_rate) ≤ 1) :
    l.min ≤ (l.step).1 ∧ (l.step).1 ≤ l.max := by
  rw [FastLfo.step]
  have hph : 0 ≤ (if l.phase + l.frequency * (1 / l.sample_rate) ≥ 1 then
        l.phase + l.frequency * (1 / l.sample_rate) - 1
      else l.phase + l.frequency * (1 / l.sample_rate)) ∧
      (if l.phase + l.frequency * (1 / l.sample_rate) ≥ 1 then
        l.phase + l.frequency * (1 / l.sample_rate) - 1
      else l.phase + l.frequency * (1 / l.sample_rate)) < 1 := by
    split_ifs with h
    · constructor <;> linarith
    · constructor <;> linarith
  set ph := if l.phase + l.frequency * (1 / l.sample_rate) ≥ 1 then
      l.phase + l.frequency * (1 / l.sample_rate) - 1
    else l.phase + l.frequency * (1 / l.sample_rate) with hph_def
  obtain ⟨hph0, hph1⟩ := hph
  have hraw : ∀ raw : ℚ, -1 ≤ raw → raw ≤ 1 →
      l.min ≤ l.min + (raw + 1) * (1/2) * (l.max - l.min) ∧
        l.min + (raw + 1) * (1/2) * (l.max - l.min) ≤ l.max := by
    intro raw hr0 hr1
    constructor <;> nlinarith
  have habs : |ph * 2 - 1| ≤ 1 := by
    rw [abs_le]
    constructor <;> linarith
  cases hw : l.waveform with
  | Sine =>
    simp only [hw]
    have hnn := abs_nonneg (ph * 2 - 1)
    have hb := sineShaper_bounds (2 * |ph * 2 - 1| - 1) (by linarith)
      (by linarith)
    exact hraw _ hb.1 hb.2
  | Saw =>
    simp only [hw]
    exact hraw _ (by linarith) (by linarith)
  | Square =>
    simp only [hw]
    refine hraw _ ?_ ?_ <;> split_ifs <;> norm_num
  | Triangle =>
    simp only [hw]
    have := abs_nonneg (ph * 2 - 1)
    exact hraw _ (by linarith) (by linarith)

/-- The configuration used to refute C7 as stated: frequency 3 at sample
rate 1 (phase increment 3), Saw waveform, default range `[-1, 1]`. -/
def lfoBad : FastLfo := FastLfo.new 3 .Saw 1

/-- C7 counterexample: with a phase increment above 1 the single `-= 1.0`
wrap leaves the phase at 2, and the Saw shaper emits the sample 3, far
outside the configured range `[-1, 1]`. -/
theorem c7_lfo_counterexample :
    (FastLfo.process lfoBad 1).1 = [3] ∧ ¬((3 : ℚ) ≤ lfoBad.max) := by
  constructor
  · have hstep : lfoBad.step = (3, { lfoBad with phase := 2 }) := by
      rw [FastLfo.step]
      norm_num [lfoBad, FastLfo.new]
    show (FastLfo.process lfoBad (0 + 1)).1 = [3]
    rw [FastLfo.process]
    simp only [hstep, FastLfo.process]
  · show ¬((3 : ℚ) ≤ 1)
    norm_num

/-- C7 (amended): for every configured output range `[min, max]` with
`min ≤ max` and every one of the four waveforms, every sample produced by
`FastLfo::process` lies within `[min, max]` inclusive — provided the
phase increment `frequency / sample_rate` lies in `[0, 1]` (the
wrap-once phase accumulator needs `0 ≤ freq ≤ sample_rate`) and the
stored phase is in `[0, 1)` as `new`/`reset` establish. -/
theorem c7_lfo_bounds (l : FastLfo) (n : Nat)
    (hmm : l.min ≤ l.max)
    (h0 : 0 ≤ l.phase) (h1 : l.phase < 1)
    (hi0 : 0 ≤ l.frequency * (1 / l.sample_rate))
    (hi1 : l.frequency * (1 / l.sample_rate) ≤ 1) :
    ∀ s ∈ (l.process n).1, l.min ≤ s ∧ s ≤ l.max := by
  induction n generalizing l with
  | zero => intro s hs; simp [FastLfo.process] at hs
  | succ n ih =>
    intro s hs
    rw [FastLfo.process] at hs
    simp only [List.mem_cons] at hs
    rcases hs with hs | hs
    · subst hs
      exact FastLfo.step_sample_mem l hmm h0 h1 hi0 hi1
    · obtain ⟨hf, hw, hmn, hmx, hsr⟩ := FastLfo.step_config l
      obtain ⟨hp0, hp1⟩ := FastLfo.step_phase_mem l h0 h1 hi0 hi1
      have := ih (l.step).2 (by rw [hmn, hmx]; exact hmm) hp0 hp1
        (by rw [hf, hsr]; exact hi0) (by rw [hf, hsr]; exact hi1) s hs
      rw [hmn, hmx] at this
      exact this

/-- The configuration used to witness the amended C7 bound: frequency
1/2 at sample rate 1, Saw waveform, default range `[-1, 1]`. -/
def lfoGood : FastLfo := FastLfo.new (1/2) .Saw 1

/-- C7 witness: the amended bound applied to a concrete in-range LFO. -/
theorem c7_lfo_bounds_witness :
    lfoGood.min ≤ lfoGood.max ∧
      ∀ s ∈ (lfoGood.process 2).1, lfoGood.min ≤ s ∧ s ≤ lfoGood.max :=
  ⟨by norm_num [lfoGood, FastLfo.new],
   c7_lfo_bounds lfoGood 2 (by norm_num [lfoGood, FastLfo.new])
     (by norm_num [lfoGood, FastLfo.new])
     (by norm_num [lfoGood, FastLfo.new])
     (by norm_num [lfoGood, FastLfo.new])
     (by norm_num [lfoGood, FastLfo.new])⟩

end PicoDSP
